import Mathlib

/-!
# Verification of the Stream Deck profile bulk-copy engine

Shallow embedding of the profile/page identity-remapping and bulk-copy
engine of `stream-deck-utility` (source: `src/unnamed/part_000`, a module
imported by the CLI as `utils/streamdeck-config.js`, plus the CLI command
layer `src/src/cli.js`).

Manifests are JSON documents; the storage tree under `ProfilesV3` is a
list of profile-bundle directories, each holding a `manifest.json` and a
`Profiles/` directory of page-bundle directories with their own
`manifest.json`.  The JavaScript functions are translated one-for-one
into pure Lean functions over an explicit filesystem state `FS`;
JavaScript exceptions become `Except String`, and state mutation that
survives a thrown exception is modelled by threading the state through
both the `ok` and `error` outcomes.
-/

namespace StreamDeck

/-- A parsed JSON document (`JSON.parse` output): string, number, boolean,
null, ordered array, or object with ordered fields.  Numbers are modelled
as integers; no claim depends on non-integral numerics. -/
inductive Doc where
  | str (s : String)
  | num (n : Int)
  | bool (b : Bool)
  | null
  | arr (xs : List Doc)
  | obj (kvs : List (String × Doc))

/-- First-match association-list lookup, the model of `Map.get` /
property access on a JavaScript object (whose keys are distinct). -/
def lookupMap (m : List (String × String)) (k : String) : Option String :=
  match m with
  | [] => none
  | (k', v) :: rest => if k' = k then some v else lookupMap rest k

/-- `Map.set`: overwrite the entry in place if the key is present
(JavaScript `Map.set` keeps the original insertion position), otherwise
append a new entry. -/
def mapSet (m : List (String × String)) (k v : String) : List (String × String) :=
  match m with
  | [] => [(k, v)]
  | (k', v') :: rest =>
    if k' = k then (k, v) :: rest else (k', v') :: mapSet rest k v

/-!
JavaScript string primitives, modelled at the character-list level so
that they compute by structural recursion (`String.toLower`,
`String.endsWith` and `String.splitOn` in the Lean library are defined
through byte-position loops that the kernel cannot unfold).  `lowerStr`
and `upperStr` coincide with `String.toLower` / `String.toUpper` — see
`lowerStr_eq` / `upperStr_eq` below.
-/

/-- `s.toLowerCase()`. -/
def lowerStr (s : String) : String := ⟨s.data.map Char.toLower⟩

/-- `s.toUpperCase()`. -/
def upperStr (s : String) : String := ⟨s.data.map Char.toUpper⟩

/-- `s.endsWith(p)`: suffix test. -/
def strEndsWith (s p : String) : Bool := p.data.isSuffixOf s.data

/-- Remove the first occurrence of `pat` from a character list. -/
def listReplaceFirst : List Char → List Char → List Char
  | [], _ => []
  | c :: rest, pat =>
    if pat.isPrefixOf (c :: rest) then (c :: rest).drop pat.length
    else c :: listReplaceFirst rest pat

/-- First-match lookup among an object's entries. -/
def lookupEntries : List (String × Doc) → String → Option Doc
  | [], _ => none
  | (k', v) :: rest, k => if k' = k then some v else lookupEntries rest k

/-- Field lookup in an object document (`manifest.Device` etc.); `none`
models JavaScript `undefined`, which is also the result of property
access on a non-object. -/
def Doc.getField : Doc → String → Option Doc
  | .obj kvs, k => lookupEntries kvs k
  | _, _ => none

/-- Field assignment on an object document (`manifest.Device = ...`):
replace the value in place if the key exists, else append the key.
Property assignment on a primitive is a silent no-op (sloppy mode), and
on an array the added property is dropped by `JSON.stringify`; both are
modelled as the identity. -/
def Doc.setField : Doc → String → Doc → Doc
  | .obj kvs, k, v => .obj (setEntries kvs k v)
  | d, _, _ => d
where
  setEntries : List (String × Doc) → String → Doc → List (String × Doc)
  | [], k, v => [(k, v)]
  | (k', v') :: rest, k, v =>
    if k' = k then (k, v) :: rest else (k', v') :: setEntries rest k v

/-- JavaScript truthiness of a JSON value (`if (manifest.Pages)` etc.):
`""`, `0`, `false` and `null` are falsy, every object and array is
truthy. -/
def Doc.truthy : Doc → Bool
  | .str s => !(s = "")
  | .num n => !(n = 0)
  | .bool b => b
  | .null => false
  | .arr _ => true
  | .obj _ => true

/-!
## The Identifier Remapper

`remapDoc field low m d` embeds the recursive `remapInObject` closures of
the source (lines 319–340 for `PageUUID` references inside
`remapPageReferencesInProfile`, lines 373–394 for `ProfileUUID`
references inside `remapProfileReferences`): a depth-first traversal
replacing every object entry whose key is `field` and whose value is a
string `s` with `lookupMap m (lowerStr s) = some v` by `v` (the `ProfileUUID`
variant additionally lowercases the written value, modelled by the `low`
flag; the `PageUUID` variant writes the mapping value verbatim).  The
returned number counts the replacements performed (`remappedCount` in the
`ProfileUUID` variant; the `modified` flag of both variants is `count ≠ 0`).
Primitive values are left alone; arrays and objects are traversed
element-by-element and entry-by-entry with no depth limit, exactly as the
`typeof obj === 'object'` recursion of the source.
-/

mutual

def remapDoc (field : String) (low : Bool) (m : List (String × String)) :
    Doc → Doc × Nat
  | .str s => (.str s, 0)
  | .num n => (.num n, 0)
  | .bool b => (.bool b, 0)
  | .null => (.null, 0)
  | .arr xs =>
    let p := remapArr field low m xs
    (.arr p.1, p.2)
  | .obj kvs =>
    let p := remapEntries field low m kvs
    (.obj p.1, p.2)

def remapArr (field : String) (low : Bool) (m : List (String × String)) :
    List Doc → List Doc × Nat
  | [] => ([], 0)
  | d :: ds =>
    let p := remapDoc field low m d
    let q := remapArr field low m ds
    (p.1 :: q.1, p.2 + q.2)

def remapEntries (field : String) (low : Bool) (m : List (String × String)) :
    List (String × Doc) → List (String × Doc) × Nat
  | [] => ([], 0)
  | (k, v) :: rest =>
    let q := remapEntries field low m rest
    if k = field then
      -- `key === fieldName && typeof value === 'string'`: consult the
      -- mapping; a non-string value falls through to the
      -- `typeof value === 'object'` recursion below (primitives stay).
      match v with
      | .str s =>
        (match lookupMap m (lowerStr s) with
         | some nv => ((k, .str (if low then lowerStr nv else nv)) :: q.1, 1 + q.2)
         | none => ((k, .str s) :: q.1, q.2))
      | .num n => ((k, .num n) :: q.1, q.2)
      | .bool b => ((k, .bool b) :: q.1, q.2)
      | .null => ((k, .null) :: q.1, q.2)
      | .arr xs =>
        (let p := remapArr field low m xs; ((k, .arr p.1) :: q.1, p.2 + q.2))
      | .obj kvs2 =>
        (let p := remapEntries field low m kvs2; ((k, .obj p.1) :: q.1, p.2 + q.2))
    else
      -- other keys: recurse into objects and arrays, leave primitives
      match v with
      | .str s => ((k, .str s) :: q.1, q.2)
      | .num n => ((k, .num n) :: q.1, q.2)
      | .bool b => ((k, .bool b) :: q.1, q.2)
      | .null => ((k, .null) :: q.1, q.2)
      | .arr xs =>
        (let p := remapArr field low m xs; ((k, .arr p.1) :: q.1, p.2 + q.2))
      | .obj kvs2 =>
        (let p := remapEntries field low m kvs2; ((k, .obj p.1) :: q.1, p.2 + q.2))

end

/-- A path into a document: a sequence of object-field and array-index
steps. -/
inductive PathElem where
  | key (k : String)
  | idx (i : Nat)
deriving Repr, DecidableEq

/-- The subdocument reached by following a path from the root, or `none`
when the path does not exist. -/
def Doc.getPath : Doc → List PathElem → Option Doc
  | d, [] => some d
  | .obj kvs, .key k :: rest =>
    match Doc.getField (.obj kvs) k with
    | some v => v.getPath rest
    | none => none
  | .arr xs, .idx i :: rest =>
    match xs.get? i with
    | some v => v.getPath rest
    | none => none
  | _, _ => none

/-- The last element of a path, if any. -/
def lastElem : List PathElem → Option PathElem
  | [] => none
  | [e] => some e
  | _ :: e :: rest => lastElem (e :: rest)

/-!
## Storage model

The engine works under one fixed root (`PROFILES_V3_PATH`); directories
are addressed by paths below it.  `FS.supply` is the stream of values the
next calls of `randomUUID()` will return (theorems add the freshness
hypotheses that mirror that function's uniqueness guarantee), and
`FS.failWrites` is the set of paths at which `writeFile` fails with an
I/O error, modelling the fallible filesystem boundary.  `FS.prefs` is the
external preference store (the `com.elgato.StreamDeck` plist accessed
through PlistBuddy in the source).
-/

/-- A stored file: a parseable JSON document, or content on which
`JSON.parse` throws. -/
inductive File where
  | json (d : Doc)
  | corrupt

/-- A page-bundle directory inside a profile's `Profiles/` directory. -/
structure PageDir where
  name : String
  manifest : File

/-- A profile-bundle directory under the `ProfilesV3` root:
its directory name, its `manifest.json`, and the page directories of its
`Profiles/` subdirectory.  Non-directory entries are never inspected by
the source and are not modelled. -/
structure ProfileDir where
  name : String
  manifest : File
  pages : List PageDir

/-- A device's record in the external preference store:
`ESDProfilesPreferred`, `ESDProfilesSorting`, `ESDProfilesExpanded`. -/
structure DevicePrefs where
  preferred : Option String
  sorting : List String
  expanded : List String

/-- The world the engine runs against. -/
structure FS where
  profiles : List ProfileDir
  supply : List String
  failWrites : List String
  prefs : List (String × DevicePrefs)

def profilesV3Path : String := "ProfilesV3"

def joinPath (a b : String) : String := a ++ "/" ++ b

/-- JavaScript `String.prototype.replace` with a plain-string pattern and
empty replacement: remove the first occurrence of `pat`. -/
def replaceFirst (s pat : String) : String := ⟨listReplaceFirst s.data pat.data⟩

/-- `randomUUID()`: take the next value off the supply. -/
def mintS : List String → String × List String
  | [] => ("", [])
  | u :: rest => (u, rest)

/-!
Structural equality of documents, modelling JavaScript `===` /
SameValueZero on JSON values.  (`===` on two distinct parsed objects is
reference inequality; manifests parsed from distinct files are distinct
objects, and no claim keys a device map by an object-valued UUID, so the
primitive cases are the ones exercised.)
-/

mutual

def Doc.beq : Doc → Doc → Bool
  | .str a, .str b => a == b
  | .num a, .num b => a == b
  | .bool a, .bool b => a == b
  | .null, .null => true
  | .arr a, .arr b => Doc.beqList a b
  | .obj a, .obj b => Doc.beqEntries a b
  | _, _ => false

def Doc.beqList : List Doc → List Doc → Bool
  | [], [] => true
  | a :: as, b :: bs => Doc.beq a b && Doc.beqList as bs
  | _, _ => false

def Doc.beqEntries : List (String × Doc) → List (String × Doc) → Bool
  | [], [] => true
  | (ka, va) :: as, (kb, vb) :: bs => ka == kb && Doc.beq va vb && Doc.beqEntries as bs
  | _, _ => false

end

/-!
## Bundle Repository and Device Index
(source: `getAllProfiles`, `getProfileById`, `getDevices`,
`getDeviceByUuid`, lines 19–75)
-/

/-- A profile as exposed by enumeration: identifier (directory name with
the first `.sdProfile` removed), storage path, parsed manifest. -/
structure Profile where
  id : String
  path : String
  manifest : Doc

/-- `getAllProfiles`: every directory under the root whose name ends in
`.sdProfile` and whose `manifest.json` parses; bundles with corrupt
manifests are skipped with a warning. -/
def getAllProfiles (fs : FS) : List Profile :=
  fs.profiles.filterMap fun dir =>
    if strEndsWith dir.name ".sdProfile" then
      match dir.manifest with
      | .json manifest =>
        some { id := replaceFirst dir.name ".sdProfile",
               path := joinPath profilesV3Path dir.name,
               manifest := manifest }
      | .corrupt => none
    else none

/-- `getProfileById`: first enumerated profile whose id equals the query
(strict `===` comparison in the source). -/
def getProfileById (fs : FS) (profileId : String) : Option Profile :=
  (getAllProfiles fs).find? fun p => p.id = profileId

/-- A device as derived by grouping profiles on `manifest.Device.UUID`. -/
structure Device where
  uuid : Doc
  model : Option Doc
  profiles : List Profile

/-- Append a profile to the device keyed by `u`, or create that device at
the end of the list (JavaScript `Map` insertion-order semantics; the
first profile's `Device.Model` wins). -/
def addToDevice (devs : List Device) (u : Doc) (mdl : Option Doc) (p : Profile) :
    List Device :=
  match devs with
  | [] => [{ uuid := u, model := mdl, profiles := [p] }]
  | d :: rest =>
    if Doc.beq d.uuid u then { d with profiles := d.profiles ++ [p] } :: rest
    else d :: addToDevice rest u mdl p

/-- `getDevices`: one pass over the enumerated profiles, keeping those
with a truthy `Device` record holding a truthy `UUID`. -/
def getDevices (fs : FS) : List Device :=
  (getAllProfiles fs).foldl
    (fun deviceMap profile =>
      match profile.manifest.getField "Device" with
      | some device =>
        if device.truthy then
          match device.getField "UUID" with
          | some u =>
            if u.truthy then addToDevice deviceMap u (device.getField "Model") profile
            else deviceMap
          | none => deviceMap
        else deviceMap
      | none => deviceMap)
    []

/-- `getDeviceByUuid`: first device whose UUID `===` the queried string. -/
def getDeviceByUuid (fs : FS) (uuid : String) : Option Device :=
  (getDevices fs).find? fun d => Doc.beq d.uuid (.str uuid)

/-!
## External preference store
(source: `getDevicePreferences`, `setDevicePreferences`, lines 121–177)
-/

/-- Association update on the preference store. -/
def prefsSet (ps : List (String × DevicePrefs)) (k : String) (v : DevicePrefs) :
    List (String × DevicePrefs) :=
  match ps with
  | [] => [(k, v)]
  | (k', v') :: rest =>
    if k' = k then (k, v) :: rest else (k', v') :: prefsSet rest k v

/-- `getDevicePreferences`: read the three plist keys of a device;
missing keys give `null` / empty lists. -/
def getDevicePreferences (fs : FS) (deviceUuid : String) : DevicePrefs :=
  match fs.prefs.find? (fun p => p.1 = deviceUuid) with
  | some p => p.2
  | none => { preferred := none, sorting := [], expanded := [] }

/-- `setDevicePreferences`: the PlistBuddy Add/Set sequence nets to
writing each component that is truthy (non-empty), keeping the existing
value otherwise. -/
def setDevicePreferences (fs : FS) (deviceUuid : String) (preferences : DevicePrefs) :
    FS :=
  let old := getDevicePreferences fs deviceUuid
  let merged : DevicePrefs :=
    { preferred :=
        match preferences.preferred with
        | some s => if s = "" then old.preferred else some s
        | none => old.preferred
      sorting := if preferences.sorting = [] then old.sorting else preferences.sorting
      expanded := if preferences.expanded = [] then old.expanded else preferences.expanded }
  { fs with prefs := prefsSet fs.prefs deviceUuid merged }

/-!
## Profile Duplication Engine
(source: `copyProfile` lines 219–270, `regeneratePageUuids` lines
272–304, `remapPageReferencesInProfile` lines 306–355,
`remapProfileReferences` lines 357–411)
-/

/-- Resolve a directory under the root by its absolute path. -/
def findDirByPath (fs : FS) (path : String) : Option ProfileDir :=
  fs.profiles.find? fun d => joinPath profilesV3Path d.name = path

/-- Replace the page list of the directory at `path`. -/
def setDirPages (fs : FS) (path : String) (pages : List PageDir) : FS :=
  { fs with
    profiles := fs.profiles.map fun d =>
      if joinPath profilesV3Path d.name = path then { d with pages := pages } else d }

/-- Replace the manifest of the directory at `path`. -/
def setDirManifest (fs : FS) (path : String) (manifest : File) : FS :=
  { fs with
    profiles := fs.profiles.map fun d =>
      if joinPath profilesV3Path d.name = path then { d with manifest := manifest } else d }

/-- The rename loop of `regeneratePageUuids` (lines 279–292): over the
`readdir` snapshot of page directories, mint a fresh identifier per page,
record `old.toLowerCase -> new.toLowerCase` in the mapping, and rename
the page directory (`cp` new + `rm` old, which preserves listing order up
to the snapshot).  Returns the renamed pages, the mapping, and the
remaining uuid supply. -/
def renamePages : List PageDir → List String → List (String × String) →
    List PageDir × List (String × String) × List String
  | [], supply, m => ([], m, supply)
  | pg :: rest, supply, m =>
    let mp := mintS supply
    let newPageId := upperStr mp.1
    let m' := mapSet m (lowerStr pg.name) (lowerStr newPageId)
    let q := renamePages rest mp.2 m'
    ({ pg with name := newPageId } :: q.1, q.2)

/-- The shared per-page loop of `remapPageReferencesInProfile` and
`remapProfileReferences`: read and parse each page's `manifest.json`
(corrupt pages are skipped by the per-page `catch`), run the remapper,
and persist when modified; a failing write is caught by the same
per-page `catch` (the file keeps its old content) but the replacements
already counted stay counted (`remappedCount` is incremented inside
`remapInObject`, before the write). -/
def remapManifests (field : String) (low : Bool) (m : List (String × String))
    (failWrites : List String) (pagesPath : String) :
    List PageDir → List PageDir × Nat
  | [] => ([], 0)
  | pg :: rest =>
    let q := remapManifests field low m failWrites pagesPath rest
    match pg.manifest with
    | .corrupt => (pg :: q.1, q.2)
    | .json d =>
      let p := remapDoc field low m d
      if p.2 = 0 then (pg :: q.1, q.2)
      else if joinPath (joinPath pagesPath pg.name) "manifest.json" ∈ failWrites then
        (pg :: q.1, p.2 + q.2)
      else ({ pg with manifest := .json p.1 } :: q.1, p.2 + q.2)

/-- `regeneratePageUuids`: rename every page directory of the profile at
`profilePath` to a freshly minted identifier, then remap `PageUUID`
references inside the page manifests.  Every error raised inside is
caught by the function's own `try`/`catch` (lines 298–301) and only
logged, so the function is total and always returns the accumulated
mapping; a missing `Profiles` directory yields the empty mapping. -/
def regeneratePageUuids (fs : FS) (profilePath : String) :
    List (String × String) × FS :=
  match findDirByPath fs profilePath with
  | none => ([], fs)
  | some dir =>
    let pagesPath := joinPath profilePath "Profiles"
    let r := renamePages dir.pages fs.supply []
    let mapping := r.2.1
    let pages2 := (remapManifests "PageUUID" false mapping fs.failWrites pagesPath r.1).1
    (mapping, setDirPages { fs with supply := r.2.2 } profilePath pages2)

/-- `value.toLowerCase()` in JavaScript: succeeds on strings, throws a
`TypeError` on every other value. -/
def jsToLowerCase (d : Doc) : Except String String :=
  match d with
  | .str s => .ok (lowerStr s)
  | _ => .error "TypeError: toLowerCase is not a function"

/-- The `manifest.Pages.Pages.map(...)` rewrite (lines 253–258): each
entry is lowercased (throwing on non-strings) and replaced by the
mapping's value when present, kept verbatim otherwise. -/
def rewritePageIds (m : List (String × String)) : List Doc → Except String (List Doc)
  | [] => .ok []
  | d :: rest =>
    match jsToLowerCase d with
    | .error e => .error e
    | .ok lowerId =>
      match rewritePageIds m rest with
      | .error e => .error e
      | .ok rest' =>
        match lookupMap m lowerId with
        | some nv => .ok (.str nv :: rest')
        | none => .ok (d :: rest')

/-- One of the `manifest.Pages.Current` / `manifest.Pages.Default`
rewrites (lines 247–252): when the field is truthy and its lowercased
value is a key of the page mapping, overwrite it with the mapping's
(lowercase) value. -/
def rewriteNavField (pages : Doc) (m : List (String × String)) (k : String) :
    Except String Doc :=
  match pages.getField k with
  | none => .ok pages
  | some c =>
    if c.truthy then
      match jsToLowerCase c with
      | .error e => .error e
      | .ok lowerId =>
        match lookupMap m lowerId with
        | some nv => .ok (pages.setField k (.str nv))
        | none => .ok pages
    else .ok pages

/-- The whole `if (manifest.Pages) ...` block of `copyProfile` (lines
246–259): rewrite `Current`, `Default` and the `Pages` list through the
page mapping.  `Pages.Pages` is only rewritten when it is an array. -/
def rewritePages (manifest : Doc) (m : List (String × String)) : Except String Doc :=
  match manifest.getField "Pages" with
  | none => .ok manifest
  | some pagesDoc =>
    if pagesDoc.truthy then
      match rewriteNavField pagesDoc m "Current" with
      | .error e => .error e
      | .ok p1 =>
        match rewriteNavField p1 m "Default" with
        | .error e => .error e
        | .ok p2 =>
          match p2.getField "Pages" with
          | some (.arr xs) =>
            match rewritePageIds m xs with
            | .error e => .error e
            | .ok xs' => .ok (manifest.setField "Pages" (p2.setField "Pages" (.arr xs')))
          | _ => .ok (manifest.setField "Pages" p2)
    else .ok manifest

/-- What `copyProfile` returns on success. -/
structure CopyResult where
  id : String
  path : String
  originalId : String
  name : Option Doc
  pageUuidMapping : List (String × String)

/-- `copyProfile` (lines 219–270): resolve the source profile (NotFound
otherwise), mint an uppercase profile identifier, clone the whole bundle
directory under it, regenerate the page identifiers inside the clone,
then load the clone's top-level manifest, overwrite its device binding,
remap its page-navigation fields through the page mapping, and persist
it.  Failures after the clone leave the clone in place: the state is
threaded through the error outcomes exactly as JavaScript leaves
completed filesystem mutations behind a thrown exception. -/
def copyProfile (fs : FS) (sourceProfileId targetDeviceUuid targetDeviceModel : String) :
    Except String CopyResult × FS :=
  match getProfileById fs sourceProfileId with
  | none => (.error ("Source profile not found: " ++ sourceProfileId), fs)
  | some sourceProfile =>
    let mp := mintS fs.supply
    let newProfileId := upperStr mp.1
    let newProfilePath := joinPath profilesV3Path (newProfileId ++ ".sdProfile")
    let fs1 : FS := { fs with supply := mp.2 }
    match findDirByPath fs1 sourceProfile.path with
    | none => (.error "ENOENT: no such file or directory", fs1)
    | some srcDir =>
      let fs2 : FS :=
        { fs1 with
          profiles := fs1.profiles ++ [{ srcDir with name := newProfileId ++ ".sdProfile" }] }
      let rg := regeneratePageUuids fs2 newProfilePath
      let pageUuidMapping := rg.1
      let fs3 := rg.2
      let manifestPath := joinPath newProfilePath "manifest.json"
      match findDirByPath fs3 newProfilePath with
      | none => (.error "ENOENT: no such file or directory", fs3)
      | some clone =>
        match clone.manifest with
        | .corrupt => (.error "SyntaxError: Unexpected token in JSON", fs3)
        | .json manifest0 =>
          let manifest1 := manifest0.setField "Device"
            (.obj [("Model", .str targetDeviceModel), ("UUID", .str targetDeviceUuid)])
          match rewritePages manifest1 pageUuidMapping with
          | .error e => (.error e, fs3)
          | .ok manifest2 =>
            if manifestPath ∈ fs3.failWrites then
              (.error "EIO: i/o error, write", fs3)
            else
              (.ok { id := newProfileId, path := newProfilePath,
                     originalId := sourceProfileId,
                     name := manifest2.getField "Name",
                     pageUuidMapping := pageUuidMapping },
               setDirManifest fs3 newProfilePath (.json manifest2))

/-!
## Bulk Copy Orchestrator
(source: `copyAllProfiles` lines 413–452, `remapProfileReferences`
lines 357–411)
-/

/-- A per-item record of the batch result list: a spread of the
`copyProfile` result (plus, after Phase 2, the `remappedReferences`
count), or the error record pushed by the `catch`. -/
inductive CopyItem where
  | ok (result : CopyResult) (remappedReferences : Option Nat)
  | fail (originalId : String) (name : Option Doc) (error : String)

/-- What `copyAllProfiles` returns: `{ profiles: results }` — one field,
nothing else (lines 449–451). -/
structure CopyAllResult where
  profiles : List CopyItem

/-- Phase 1 (lines 422–436): copy every source profile independently; a
failure is recorded as a per-item error and the loop continues; each
success adds `originalId.toLowerCase -> newId` to the batch mapping. -/
def phase1 (targetDeviceUuid targetDeviceModel : String) :
    List Profile → FS → List (String × String) →
    List CopyItem × List (String × String) × FS
  | [], fs, m => ([], m, fs)
  | p :: rest, fs, m =>
    match copyProfile fs p.id targetDeviceUuid targetDeviceModel with
    | (.ok r, fs') =>
      let m' := mapSet m (lowerStr r.originalId) r.id
      let q := phase1 targetDeviceUuid targetDeviceModel rest fs' m'
      (.ok r none :: q.1, q.2)
    | (.error e, fs') =>
      let q := phase1 targetDeviceUuid targetDeviceModel rest fs' m
      (.fail p.id (p.manifest.getField "Name") e :: q.1, q.2)

/-- `remapProfileReferences` (lines 357–411): remap `ProfileUUID`
references (lowercasing the written value) in every page manifest of the
profile at `profilePath`, returning the number of replacements.  A
missing directory is absorbed by the outer `catch` with count 0. -/
def remapProfileReferences (fs : FS) (profilePath : String)
    (m : List (String × String)) : Nat × FS :=
  match findDirByPath fs profilePath with
  | none => (0, fs)
  | some dir =>
    let pagesPath := joinPath profilePath "Profiles"
    let r := remapManifests "ProfileUUID" true m fs.failWrites pagesPath dir.pages
    (r.2, setDirPages fs profilePath r.1)

/-- Phase 2 (lines 438–443): for every successful item, remap
cross-profile references inside the copied bundle with the batch-wide
mapping and record the replacement count on the item. -/
def phase2 (m : List (String × String)) :
    List CopyItem → FS → List CopyItem × FS
  | [], fs => ([], fs)
  | .ok r _ :: rest, fs =>
    let p := remapProfileReferences fs r.path m
    let q := phase2 m rest p.2
    (.ok r (some p.1) :: q.1, q.2)
  | .fail oid nm e :: rest, fs =>
    let q := phase2 m rest fs
    (.fail oid nm e :: q.1, q.2)

/-- `copyAllProfiles` (lines 413–452): NotFound for an unknown source
device, then Phase 1 and Phase 2.  The result carries only the per-item
list; device preferences are deliberately not read, rewritten or written
(lines 445–447). -/
def copyAllProfiles (fs : FS) (sourceDeviceUuid targetDeviceUuid targetDeviceModel : String) :
    Except String CopyAllResult × FS :=
  match getDeviceByUuid fs sourceDeviceUuid with
  | none => (.error ("Source device not found: " ++ sourceDeviceUuid), fs)
  | some sourceDevice =>
    let p1 := phase1 targetDeviceUuid targetDeviceModel sourceDevice.profiles fs []
    let p2 := phase2 p1.2.1 p1.1 p1.2.2
    (.ok { profiles := p2.1 }, p2.2)

/-!
## Derived notions used by the theorems
-/

/-- The value the remapper writes for a string `s` found under the
recognized field name: the mapping's target (lowercased by the
`ProfileUUID` variant), or `s` itself when `lowerStr s` is not a key. -/
def remapLeafTarget (low : Bool) (m : List (String × String))
    (s : String) : String :=
  match lookupMap m (lowerStr s) with
  | some nv => if low then lowerStr nv else nv
  | none => s

/-- How the remapper transforms the value sitting directly under an
object key: a string directly under the recognized field name is
replaced (or kept) per `remapLeafTarget`; everything else is traversed
recursively. -/
def remapUnder (field : String) (low : Bool) (m : List (String × String))
    (underField : Bool) : Doc → Doc
  | .str s => if underField then .str (remapLeafTarget low m s) else .str s
  | .num n => .num n
  | .bool b => .bool b
  | .null => .null
  | .arr xs => .arr (remapArr field low m xs).1
  | .obj kvs => .obj (remapEntries field low m kvs).1

/-!
## Concrete states used by counterexamples and witnesses
-/

/-- One stored profile whose identifier is `ABC` (uppercase). -/
def fsC5 : FS :=
  { profiles := [{ name := "ABC.sdProfile", manifest := .json (.obj []), pages := [] }],
    supply := [], failWrites := [], prefs := [] }

/-- A single profile bound to device `DEV-A`. -/
def dirC1 : ProfileDir :=
  { name := "P1.sdProfile",
    manifest := .json (.obj [("Name", .str "One"),
      ("Device", .obj [("Model", .str "MA"), ("UUID", .str "DEV-A")])]),
    pages := [] }

/-- The preference record stored for `DEV-A`. -/
def prefsC1 : DevicePrefs :=
  { preferred := some "p1", sorting := ["p1"], expanded := [] }

/-- A device `DEV-A` with one profile, and a preference record for
`DEV-A` in the external store. -/
def fsC1 : FS :=
  { profiles := [dirC1],
    supply := ["aa-1"], failWrites := [],
    prefs := [("DEV-A", prefsC1)] }

/-- A top-level manifest with unrecognized fields `Name` and `Custom`,
and an unrecognized field `Extra` inside `Pages`; `Current` is stored in
uppercase while the page mapping key is lowercase. -/
def manifestC9 : Doc := .obj [("Name", .str "N"), ("Custom", .num 7),
  ("Pages", .obj [("Current", .str "PGA"), ("Extra", .bool true)])]

/-- The device-binding record written by step 4. -/
def devC9 : Doc := .obj [("Model", .str "M"), ("UUID", .str "D")]

/-- The expected step-4 output for `manifestC9`. -/
def outC9 : Doc := .obj [("Name", .str "N"), ("Custom", .num 7),
  ("Pages", .obj [("Current", .str "bb-2"), ("Extra", .bool true)]),
  ("Device", devC9)]

/-- Pages of the C3 witness profile. -/
def pgC3a : PageDir := { name := "PGA", manifest := .json (.obj []) }

def pgC3b : PageDir := { name := "PGB", manifest := .json (.obj []) }

/-- A profile with two pages, used to witness duplication claims. -/
def dirC3 : ProfileDir :=
  { name := "P1.sdProfile", manifest := .json (.obj [("Name", .str "One")]),
    pages := [pgC3a, pgC3b] }

/-- Store with the two-page profile and three fresh uuids on supply. -/
def fsC3 : FS :=
  { profiles := [dirC3], supply := ["aa-1", "bb-2", "cc-3"],
    failWrites := [], prefs := [] }

/-- The enumerated record of `dirC3`. -/
def pC3 : Profile :=
  { id := "P1", path := joinPath profilesV3Path "P1.sdProfile",
    manifest := .obj [("Name", .str "One")] }

/-- Observer: the stored manifest of page `pageName` inside profile
directory `dirName`. -/
def pageManifestOf (fs : FS) (dirName pageName : String) : Option File :=
  match fs.profiles.find? (fun d => d.name = dirName) with
  | none => none
  | some d =>
    match d.pages.find? (fun pg => pg.name = pageName) with
    | none => none
    | some pg => some pg.manifest

/-- Page with a `PageUUID` navigation reference to its sibling. -/
def pgC4a : PageDir :=
  { name := "PGA", manifest := .json (.obj [("PageUUID", .str "pgb")]) }

def pgC4b : PageDir := { name := "PGB", manifest := .json (.obj []) }

/-- Profile whose first page references the second. -/
def dirC4 : ProfileDir :=
  { name := "P1.sdProfile", manifest := .json (.obj [("Name", .str "One")]),
    pages := [pgC4a, pgC4b] }

/-- The enumerated record of `dirC4`. -/
def pC4 : Profile :=
  { id := "P1", path := joinPath profilesV3Path "P1.sdProfile",
    manifest := .obj [("Name", .str "One")] }

/-- The path of the renamed first page's manifest inside the clone. -/
def failC4 : String := "ProfilesV3/AA-1.sdProfile/Profiles/BB-2/manifest.json"

/-- Store where persisting the clone's first page manifest fails
(step 3 of duplication). -/
def fsC4 : FS :=
  { profiles := [dirC4], supply := ["aa-1", "bb-2", "cc-3"],
    failWrites := [failC4], prefs := [] }

/-- Store where persisting the clone's top-level manifest fails
(step 4 of duplication). -/
def fsC4b : FS :=
  { profiles := [dirC4], supply := ["aa-1", "bb-2", "cc-3"],
    failWrites := ["ProfilesV3/AA-1.sdProfile/manifest.json"], prefs := [] }

/-- The original identifier an item of the batch result list refers to
(`result.originalId` on a success, the `originalId` field of the error
record on a failure). -/
def itemOriginalId : CopyItem → String
  | .ok r _ => r.originalId
  | .fail oid _ _ => oid

/-- The batch-mapping entry a result item contributed: successes add
`originalId.toLowerCase -> newId`, failures add nothing. -/
def itemMappingEntry : CopyItem → Option (String × String)
  | .ok r _ => some (lowerStr r.originalId, r.id)
  | .fail _ _ _ => none

/-- Three profiles on device `DEV-A`; the middle one is poisoned: its
`Pages.Current` is a number, so `copyProfile` throws a `TypeError` on
`toLowerCase`. -/
def dirC8a : ProfileDir :=
  { name := "P1.sdProfile",
    manifest := .json (.obj [("Name", .str "One"),
      ("Device", .obj [("Model", .str "MA"), ("UUID", .str "DEV-A")])]),
    pages := [] }

def dirC8b : ProfileDir :=
  { name := "P2.sdProfile",
    manifest := .json (.obj [("Name", .str "Two"),
      ("Device", .obj [("Model", .str "MA"), ("UUID", .str "DEV-A")]),
      ("Pages", .obj [("Current", .num 5)])]),
    pages := [] }

def dirC8c : ProfileDir :=
  { name := "P3.sdProfile",
    manifest := .json (.obj [("Name", .str "Three"),
      ("Device", .obj [("Model", .str "MA"), ("UUID", .str "DEV-A")])]),
    pages := [] }

def fsC8 : FS :=
  { profiles := [dirC8a, dirC8b, dirC8c],
    supply := ["aa-1", "bb-2", "cc-3"], failWrites := [], prefs := [] }

/-- The profile list of the known source device `DEV-A`. -/
def psC8 : List Profile :=
  match getDeviceByUuid fsC8 "DEV-A" with
  | some d => d.profiles
  | none => []

/-!
## Fixtures for the cross-profile reference claims

Two profiles on device `DEV-A`: `AB` with no pages, and `CD` whose
single page holds a cross-profile switch-reference (`ProfileUUID`) to
`AB`.  For C2 the reference string is a parameter (any casing of `ab`);
for C10 the uuid supply is digit-only, so upper- and lowercasing fix
every minted identifier.
-/

/-- The device binding shared by the `DEV-A` source profiles. -/
def devA : Doc := .obj [("Model", .str "MA"), ("UUID", .str "DEV-A")]

/-- Source profile `AB`: no pages. -/
def dirC2a : ProfileDir :=
  { name := "AB.sdProfile", manifest := .json (.obj [("Device", devA)]),
    pages := [] }

/-- The page of source profile `CD`, referencing profile `AB` through
the string `rr`. -/
def pgC2 (rr : String) : PageDir :=
  { name := "PG", manifest := .json (.obj [("ProfileUUID", .str rr)]) }

/-- Source profile `CD`: one page referencing `AB`. -/
def dirC2b (rr : String) : ProfileDir :=
  { name := "CD.sdProfile", manifest := .json (.obj [("Device", devA)]),
    pages := [pgC2 rr] }

/-- Batch-copy store for C2: profiles `AB` and `CD` on `DEV-A`, the `CD`
page referencing `AB` as `rr`; three lowercase uuids on supply. -/
def fsC2 (rr : String) : FS :=
  { profiles := [dirC2a, dirC2b rr], supply := ["ee-1", "ff-2", "gg-3"],
    failWrites := [], prefs := [] }

/-- Batch-copy store for C10: the same two profiles, the reference
written as `aB`, and digit-only uuids on supply. -/
def fsC10 : FS :=
  { profiles := [dirC2a, dirC2b "aB"], supply := ["1111", "2222", "3333"],
    failWrites := [], prefs := [] }

/-- The enumerated record of `dirC2a`. -/
def pC2a : Profile :=
  { id := "AB", path := joinPath profilesV3Path "AB.sdProfile",
    manifest := .obj [("Device", devA)] }

/-- The enumerated record of `dirC2b rr` (the manifest does not show the
pages, so it is independent of `rr`). -/
def pC2b : Profile :=
  { id := "CD", path := joinPath profilesV3Path "CD.sdProfile",
    manifest := .obj [("Device", devA)] }

/-- The device binding written by step 4 for target `DEV-B`. -/
def devB : Doc := .obj [("Model", .str "MB"), ("UUID", .str "DEV-B")]

/-- The copy of profile `AB` after its own duplication finished. -/
def cloneC10a : ProfileDir :=
  { name := "1111.sdProfile", manifest := .json (.obj [("Device", devB)]),
    pages := [] }

/-- The renamed page of the `CD` copy, its reference still unmapped. -/
def pgC10r : PageDir :=
  { name := "3333", manifest := .json (.obj [("ProfileUUID", .str "aB")]) }

/-- The copy of profile `CD` after Phase 1. -/
def cloneC10b : ProfileDir :=
  { name := "2222.sdProfile", manifest := .json (.obj [("Device", devB)]),
    pages := [pgC10r] }

/-- The C10 store after the first duplication. -/
def fsC10a : FS :=
  { profiles := [dirC2a, dirC2b "aB", cloneC10a], supply := ["2222", "3333"],
    failWrites := [], prefs := [] }

/-- The C10 store after Phase 1. -/
def fsC10b : FS :=
  { profiles := [dirC2a, dirC2b "aB", cloneC10a, cloneC10b], supply := [],
    failWrites := [], prefs := [] }

/-- The `CD`-copy page after Phase 2: the cross-profile reference now
holds, byte-for-byte, the stored identifier of the `AB` copy. -/
def pgC10f : PageDir :=
  { name := "3333", manifest := .json (.obj [("ProfileUUID", .str "1111")]) }

/-- The copy of profile `CD` after Phase 2. -/
def cloneC10f : ProfileDir :=
  { name := "2222.sdProfile", manifest := .json (.obj [("Device", devB)]),
    pages := [pgC10f] }

/-- The C10 store after the whole batch copy. -/
def fsC10f : FS :=
  { profiles := [dirC2a, dirC2b "aB", cloneC10a, cloneC10f], supply := [],
    failWrites := [], prefs := [] }

/-- The per-item result of copying `AB` in the C10 run. -/
def r1C10 : CopyResult :=
  { id := "1111", path := "ProfilesV3/1111.sdProfile", originalId := "AB",
    name := none, pageUuidMapping := [] }

/-- The per-item result of copying `CD` in the C10 run. -/
def r2C10 : CopyResult :=
  { id := "2222", path := "ProfilesV3/2222.sdProfile", originalId := "CD",
    name := none, pageUuidMapping := [("pg", "3333")] }

/-- The copy of profile `AB` after its duplication in the C2 run. -/
def cloneC2a : ProfileDir :=
  { name := "EE-1.sdProfile", manifest := .json (.obj [("Device", devB)]),
    pages := [] }

/-- The renamed page of the `CD` copy in the C2 run, its reference still
unmapped. -/
def pgC2r (rr : String) : PageDir :=
  { name := "GG-3", manifest := .json (.obj [("ProfileUUID", .str rr)]) }

/-- The copy of profile `CD` after Phase 1 of the C2 run. -/
def cloneC2b (rr : String) : ProfileDir :=
  { name := "FF-2.sdProfile", manifest := .json (.obj [("Device", devB)]),
    pages := [pgC2r rr] }

/-- The C2 store after the first duplication. -/
def fsC2a (rr : String) : FS :=
  { profiles := [dirC2a, dirC2b rr, cloneC2a], supply := ["ff-2", "gg-3"],
    failWrites := [], prefs := [] }

/-- The C2 store after Phase 1. -/
def fsC2b (rr : String) : FS :=
  { profiles := [dirC2a, dirC2b rr, cloneC2a, cloneC2b rr], supply := [],
    failWrites := [], prefs := [] }

/-- The `CD`-copy page after Phase 2 of the C2 run: the reference now
holds the lowercased minted identifier of the `AB` copy. -/
def pgC2f : PageDir :=
  { name := "GG-3", manifest := .json (.obj [("ProfileUUID", .str "ee-1")]) }

/-- The copy of profile `CD` after Phase 2 of the C2 run. -/
def cloneC2f : ProfileDir :=
  { name := "FF-2.sdProfile", manifest := .json (.obj [("Device", devB)]),
    pages := [pgC2f] }

/-- The C2 store after the whole batch copy. -/
def fsC2f (rr : String) : FS :=
  { profiles := [dirC2a, dirC2b rr, cloneC2a, cloneC2f], supply := [],
    failWrites := [], prefs := [] }

/-- The per-item result of copying `AB` in the C2 run. -/
def r1C2 : CopyResult :=
  { id := "EE-1", path := "ProfilesV3/EE-1.sdProfile", originalId := "AB",
    name := none, pageUuidMapping := [] }

/-- The per-item result of copying `CD` in the C2 run. -/
def r2C2 : CopyResult :=
  { id := "FF-2", path := "ProfilesV3/FF-2.sdProfile", originalId := "CD",
    name := none, pageUuidMapping := [("pg", "gg-3")] }

/-!
## Case-conversion facts

`Char.toLower` / `Char.toUpper` move only the ASCII letter ranges, so
both are idempotent; this backs the lowercase-normalization reasoning.
-/

theorem char_toNat_ofNat_of_lower (n : Nat) (h1 : 97 ≤ n) (h2 : n ≤ 122) :
    (Char.ofNat n).toNat = n := by
  have hv : n.isValidChar := Or.inl (by omega)
  simp only [Char.ofNat, hv, dite_true, Char.ofNatAux, Char.toNat, UInt32.toNat,
    BitVec.toNat_ofNatLt]

theorem char_toNat_ofNat_of_upper (n : Nat) (h1 : 65 ≤ n) (h2 : n ≤ 90) :
    (Char.ofNat n).toNat = n := by
  have hv : n.isValidChar := Or.inl (by omega)
  simp only [Char.ofNat, hv, dite_true, Char.ofNatAux, Char.toNat, UInt32.toNat,
    BitVec.toNat_ofNatLt]

theorem char_toLower_not_upper (c : Char) :
    ¬(65 ≤ c.toLower.toNat ∧ c.toLower.toNat ≤ 90) := by
  rw [Char.toLower]
  split
  · next h => rw [char_toNat_ofNat_of_lower] <;> omega
  · next h => omega

theorem char_toLower_idem (c : Char) : c.toLower.toLower = c.toLower := by
  have hb := char_toLower_not_upper c
  conv_lhs => rw [Char.toLower]
  split
  · next h => exact absurd ⟨h.1, h.2⟩ hb
  · rfl

theorem lowerStr_eq (s : String) : lowerStr s = s.toLower :=
  (String.map_eq Char.toLower s).symm

theorem lowerStr_idem (s : String) : lowerStr (lowerStr s) = lowerStr s := by
  show (⟨(s.data.map Char.toLower).map Char.toLower⟩ : String) = ⟨s.data.map Char.toLower⟩
  simp only [List.map_map]
  congr 1
  exact List.map_congr_left fun c _ => char_toLower_idem c

theorem char_toUpper_not_lower (c : Char) :
    ¬(97 ≤ c.toUpper.toNat ∧ c.toUpper.toNat ≤ 122) := by
  rw [Char.toUpper]
  split
  · next h => rw [char_toNat_ofNat_of_upper] <;> omega
  · next h => omega

theorem char_toUpper_idem (c : Char) : c.toUpper.toUpper = c.toUpper := by
  have hb := char_toUpper_not_lower c
  conv_lhs => rw [Char.toUpper]
  split
  · next h => exact absurd ⟨h.1, h.2⟩ hb
  · rfl

theorem upperStr_eq (s : String) : upperStr s = s.toUpper :=
  (String.map_eq Char.toUpper s).symm

theorem upperStr_idem (s : String) : upperStr (upperStr s) = upperStr s := by
  show (⟨(s.data.map Char.toUpper).map Char.toUpper⟩ : String) = ⟨s.data.map Char.toUpper⟩
  simp only [List.map_map]
  congr 1
  exact List.map_congr_left fun c _ => char_toUpper_idem c

/-!
## Pointwise behaviour of the remapper
-/

theorem getField_remapEntries (field : String) (low : Bool)
    (m : List (String × String)) (kvs : List (String × Doc)) (k : String) :
    lookupEntries (remapEntries field low m kvs).1 k =
      (lookupEntries kvs k).map (remapUnder field low m (k = field)) := by
  induction kvs with
  | nil => simp [remapEntries, lookupEntries]
  | cons kv rest ih =>
    obtain ⟨k', v⟩ := kv
    by_cases hk : k' = field
    · subst hk
      by_cases hkk : k' = k
      · subst hkk
        cases v with
        | str s =>
          cases hl : lookupMap m (lowerStr s) <;>
            simp [remapEntries, lookupEntries, remapUnder, remapLeafTarget, hl]
        | num n => simp [remapEntries, lookupEntries, remapUnder]
        | bool b => simp [remapEntries, lookupEntries, remapUnder]
        | null => simp [remapEntries, lookupEntries, remapUnder]
        | arr xs => simp [remapEntries, lookupEntries, remapUnder]
        | obj kvs' => simp [remapEntries, lookupEntries, remapUnder]
      · cases v with
        | str s =>
          cases hl : lookupMap m (lowerStr s) <;>
            simp [remapEntries, lookupEntries, hkk, ih, hl]
        | num n => simp [remapEntries, lookupEntries, hkk, ih]
        | bool b => simp [remapEntries, lookupEntries, hkk, ih]
        | null => simp [remapEntries, lookupEntries, hkk, ih]
        | arr xs => simp [remapEntries, lookupEntries, hkk, ih]
        | obj kvs' => simp [remapEntries, lookupEntries, hkk, ih]
    · by_cases hkk : k' = k
      · subst hkk
        have hkf : ¬(k' = field) := hk
        cases v with
        | str s => simp [remapEntries, lookupEntries, hkf, remapUnder]
        | num n => simp [remapEntries, lookupEntries, hkf, remapUnder]
        | bool b => simp [remapEntries, lookupEntries, hkf, remapUnder]
        | null => simp [remapEntries, lookupEntries, hkf, remapUnder]
        | arr xs => simp [remapEntries, lookupEntries, hkf, remapUnder]
        | obj kvs' => simp [remapEntries, lookupEntries, hkf, remapUnder]
      · cases v with
        | str s => simp [remapEntries, lookupEntries, hk, hkk, ih]
        | num n => simp [remapEntries, lookupEntries, hk, hkk, ih]
        | bool b => simp [remapEntries, lookupEntries, hk, hkk, ih]
        | null => simp [remapEntries, lookupEntries, hk, hkk, ih]
        | arr xs => simp [remapEntries, lookupEntries, hk, hkk, ih]
        | obj kvs' => simp [remapEntries, lookupEntries, hk, hkk, ih]

theorem get?_remapArr (field : String) (low : Bool)
    (m : List (String × String)) (xs : List Doc) (i : Nat) :
    (remapArr field low m xs).1.get? i =
      (xs.get? i).map (fun v => (remapDoc field low m v).1) := by
  induction xs generalizing i with
  | nil => simp [remapArr]
  | cons x rest ih =>
    cases i with
    | zero => simp [remapArr]
    | succ j => simpa [remapArr] using ih j

theorem remapEntries_keys (field : String) (low : Bool)
    (m : List (String × String)) (kvs : List (String × Doc)) :
    (remapEntries field low m kvs).1.map Prod.fst = kvs.map Prod.fst := by
  induction kvs with
  | nil => simp [remapEntries]
  | cons kv rest ih =>
    obtain ⟨k', v⟩ := kv
    by_cases hk : k' = field
    · subst hk
      cases v with
      | str s => cases hl : lookupMap m (lowerStr s) <;> simp [remapEntries, hl, ih]
      | num n => simp [remapEntries, ih]
      | bool b => simp [remapEntries, ih]
      | null => simp [remapEntries, ih]
      | arr xs => simp [remapEntries, ih]
      | obj kvs' => simp [remapEntries, ih]
    · cases v with
      | str s => simp [remapEntries, hk, ih]
      | num n => simp [remapEntries, hk, ih]
      | bool b => simp [remapEntries, hk, ih]
      | null => simp [remapEntries, hk, ih]
      | arr xs => simp [remapEntries, hk, ih]
      | obj kvs' => simp [remapEntries, hk, ih]

theorem getPath_remapUnder_str_cons (field : String) (low : Bool)
    (m : List (String × String)) (c : Bool) (s : String)
    (e : PathElem) (l : List PathElem) :
    (remapUnder field low m c (Doc.str s)).getPath (e :: l) = none := by
  cases c <;> simp only [remapUnder, if_true, if_false, Bool.false_eq_true] <;>
    cases e <;> rfl

theorem remapArr_length (field : String) (low : Bool)
    (m : List (String × String)) (xs : List Doc) :
    (remapArr field low m xs).1.length = xs.length := by
  induction xs with
  | nil => rfl
  | cons x rest ih => simp [remapArr, ih]

theorem lastElem_cons (e e' : PathElem) (l : List PathElem) :
    lastElem (e :: e' :: l) = lastElem (e' :: l) := by
  rw [lastElem]

theorem getPath_cons_key (kvs : List (String × Doc)) (k : String)
    (rest : List PathElem) :
    Doc.getPath (.obj kvs) (.key k :: rest) =
      match lookupEntries kvs k with
      | some v => v.getPath rest
      | none => none := by
  rfl

theorem getPath_cons_idx (xs : List Doc) (i : Nat) (rest : List PathElem) :
    Doc.getPath (.arr xs) (.idx i :: rest) =
      match xs.get? i with
      | some v => v.getPath rest
      | none => none := by
  rfl

/-- Master pointwise description of the remapper: the document it
returns has, at every path, exactly the transform of the original's
value there — a string directly under the recognized field name goes
through the mapping, everything else is the recursive image. -/
theorem remapDoc_getPath (field : String) (low : Bool)
    (m : List (String × String)) (π : List PathElem) (d : Doc) :
    (remapDoc field low m d).1.getPath π =
      (d.getPath π).map
        (remapUnder field low m (decide (lastElem π = some (.key field)))) := by
  induction π generalizing d with
  | nil =>
    cases d <;> simp [Doc.getPath, lastElem, remapUnder, remapDoc]
  | cons e rest ih =>
    cases e with
    | key k =>
      cases d with
      | obj kvs =>
        rw [remapDoc]
        rw [getPath_cons_key, getPath_cons_key, getField_remapEntries]
        cases hv : lookupEntries kvs k with
        | none => simp
        | some v =>
          simp only [Option.map_some]
          cases hrest : rest with
          | nil =>
            simp only [lastElem]
            by_cases hk : k = field
            · subst hk
              cases v <;>
                simp [remapUnder, Doc.getPath, lastElem, remapDoc]
            · cases v <;>
                simp [remapUnder, Doc.getPath, lastElem, remapDoc, hk]
          | cons e' l =>
            rw [← hrest]
            have hlast : lastElem (PathElem.key k :: rest) = lastElem rest := by
              rw [hrest, lastElem_cons]
            rw [hlast]
            have hnil : ∀ s : String, Doc.getPath (.str s) rest = none := by
              intro s; rw [hrest]; rfl
            cases v with
            | str s =>
              rw [hnil s, hrest]
              exact (getPath_remapUnder_str_cons _ _ _ _ _ _ _).trans rfl
            | num n => simpa [remapUnder, remapDoc] using ih (.num n)
            | bool b => simpa [remapUnder, remapDoc] using ih (.bool b)
            | null => simpa [remapUnder, remapDoc] using ih .null
            | arr xs => simpa [remapUnder, remapDoc] using ih (.arr xs)
            | obj kvs' => simpa [remapUnder, remapDoc] using ih (.obj kvs')
      | str s => simp [remapDoc, Doc.getPath]
      | num n => simp [remapDoc, Doc.getPath]
      | bool b => simp [remapDoc, Doc.getPath]
      | null => simp [remapDoc, Doc.getPath]
      | arr xs =>
        rw [remapDoc]
        simp [Doc.getPath]
    | idx i =>
      cases d with
      | arr xs =>
        rw [remapDoc]
        rw [getPath_cons_idx, getPath_cons_idx, get?_remapArr]
        cases hv : xs.get? i with
        | none => simp
        | some v =>
          simp only [Option.map_some]
          cases hrest : rest with
          | nil =>
            simp only [lastElem]
            cases v <;> simp [remapUnder, Doc.getPath, lastElem, remapDoc]
          | cons e' l =>
            rw [← hrest]
            have hlast : lastElem (PathElem.idx i :: rest) = lastElem rest := by
              rw [hrest, lastElem_cons]
            rw [hlast]
            have hnil : ∀ s : String, Doc.getPath (.str s) rest = none := by
              intro s; rw [hrest]; rfl
            cases v with
            | str s =>
              rw [hnil s, hrest]
              rfl
            | num n => simpa [remapUnder, remapDoc] using ih (.num n)
            | bool b => simpa [remapUnder, remapDoc] using ih (.bool b)
            | null => simpa [remapUnder, remapDoc] using ih .null
            | arr xs2 => simpa [remapUnder, remapDoc] using ih (.arr xs2)
            | obj kvs' => simpa [remapUnder, remapDoc] using ih (.obj kvs')
      | str s => simp [remapDoc, Doc.getPath]
      | num n => simp [remapDoc, Doc.getPath]
      | bool b => simp [remapDoc, Doc.getPath]
      | null => simp [remapDoc, Doc.getPath]
      | obj kvs =>
        rw [remapDoc]
        simp [Doc.getPath]

/-- **C6.** For every document and mapping, the remapper reaches every
nested map and sequence element: at every path into the document, a
string value sitting directly under the recognized field name is
replaced exactly when its lowercase form is a key of the mapping (by the
mapping's target, lowercased by the `ProfileUUID` variant), while
non-string values under the field name, string values under other keys,
and all other content — keys of every nested map, length of every
sequence — are untouched, at every depth. -/
theorem C6_remapper_traversal (field : String) (low : Bool)
    (m : List (String × String)) (d : Doc) (π : List PathElem) :
    (d.getPath π = none → (remapDoc field low m d).1.getPath π = none)
    ∧ (∀ s : String, d.getPath π = some (.str s) →
        (remapDoc field low m d).1.getPath π =
          some (.str (if lastElem π = some (.key field)
                      then remapLeafTarget low m s else s)))
    ∧ (∀ n : Int, d.getPath π = some (.num n) →
        (remapDoc field low m d).1.getPath π = some (.num n))
    ∧ (∀ b : Bool, d.getPath π = some (.bool b) →
        (remapDoc field low m d).1.getPath π = some (.bool b))
    ∧ (d.getPath π = some .null →
        (remapDoc field low m d).1.getPath π = some .null)
    ∧ (∀ kvs : List (String × Doc), d.getPath π = some (.obj kvs) →
        ∃ kvs', (remapDoc field low m d).1.getPath π = some (.obj kvs')
          ∧ kvs'.map Prod.fst = kvs.map Prod.fst)
    ∧ (∀ xs : List Doc, d.getPath π = some (.arr xs) →
        ∃ ys, (remapDoc field low m d).1.getPath π = some (.arr ys)
          ∧ ys.length = xs.length) := by
  rw [remapDoc_getPath]
  refine ⟨fun h => by rw [h]; rfl, fun s h => ?_, fun n h => by rw [h]; rfl,
    fun b h => by rw [h]; rfl, fun h => by rw [h]; rfl,
    fun kvs h => ?_, fun xs h => ?_⟩
  · rw [h]
    by_cases hc : lastElem π = some (.key field) <;>
      simp [remapUnder, hc]
  · rw [h]
    exact ⟨(remapEntries field low m kvs).1,
      by cases hc : decide (lastElem π = some (.key field)) <;> simp [remapUnder],
      remapEntries_keys field low m kvs⟩
  · rw [h]
    exact ⟨(remapArr field low m xs).1,
      by cases hc : decide (lastElem π = some (.key field)) <;> simp [remapUnder],
      remapArr_length field low m xs⟩

/-- Witness for C6 at a concrete document and path: a mixed-case
`ProfileUUID` reference nested inside sequence and map layers is
rewritten to the mapping's lowercased target. -/
theorem C6_witness :
    (Doc.obj [("Controllers",
        Doc.arr [Doc.obj [("Actions", Doc.obj [("0,0",
          Doc.obj [("ProfileUUID", Doc.str "AbC"), ("Other", Doc.num 3)])])]])]).getPath
        [.key "Controllers", .idx 0, .key "Actions", .key "0,0", .key "ProfileUUID"] =
      some (.str "AbC")
    ∧ (remapDoc "ProfileUUID" true [("abc", "NEW-9")]
        (Doc.obj [("Controllers",
          Doc.arr [Doc.obj [("Actions", Doc.obj [("0,0",
            Doc.obj [("ProfileUUID", Doc.str "AbC"), ("Other", Doc.num 3)])])]])])).1.getPath
        [.key "Controllers", .idx 0, .key "Actions", .key "0,0", .key "ProfileUUID"] =
      some (.str "new-9") := by
  constructor
  · rfl
  · have h := (C6_remapper_traversal "ProfileUUID" true [("abc", "NEW-9")]
      (Doc.obj [("Controllers",
        Doc.arr [Doc.obj [("Actions", Doc.obj [("0,0",
          Doc.obj [("ProfileUUID", Doc.str "AbC"), ("Other", Doc.num 3)])])]])])
      [.key "Controllers", .idx 0, .key "Actions", .key "0,0", .key "ProfileUUID"]).2.1
      "AbC" rfl
    rw [h]
    rfl

/-- `lookupMap` only returns values stored in the list. -/
theorem lookupMap_mem {m : List (String × String)} {k v : String}
    (h : lookupMap m k = some v) : ∃ k', (k', v) ∈ m := by
  induction m with
  | nil => simp [lookupMap] at h
  | cons kv rest ih =>
    obtain ⟨k', v'⟩ := kv
    rw [lookupMap] at h
    by_cases hk : k' = k
    · rw [if_pos hk] at h
      refine ⟨k', ?_⟩
      rw [← Option.some.inj h]
      exact List.mem_cons_self _ _
    · rw [if_neg hk] at h
      obtain ⟨k'', hmem⟩ := ih h
      exact ⟨k'', List.mem_cons_of_mem _ hmem⟩

/-- Idempotence of the remapper, proved simultaneously for documents,
object entry lists and arrays. -/
theorem remap_idem_mutual (field : String) (low : Bool)
    (m : List (String × String))
    (hm : ∀ kv ∈ m, lookupMap m (lowerStr kv.2) = none) :
    (∀ d : Doc, remapDoc field low m (remapDoc field low m d).1 =
      ((remapDoc field low m d).1, 0))
    ∧ (∀ kvs : List (String × Doc),
        remapEntries field low m (remapEntries field low m kvs).1 =
          ((remapEntries field low m kvs).1, 0))
    ∧ (∀ xs : List Doc,
        remapArr field low m (remapArr field low m xs).1 =
          ((remapArr field low m xs).1, 0)) := by
  refine remapDoc.mutual_induct field low m _ _ _
    ?_ ?_ ?_ ?_ ?_ ?_ ?_ ?_ ?_ ?_ ?_ ?_ ?_ ?_ ?_ ?_ ?_ ?_ ?_ ?_ ?_ ?_
  · intro s; simp [remapDoc]
  · intro n; simp [remapDoc]
  · intro b; simp [remapDoc]
  · simp [remapDoc]
  · intro xs ih; simp [remapDoc, ih]
  · intro kvs ih; simp [remapDoc, ih]
  · simp [remapArr]
  · intro d ds ih1 ih2; simp [remapArr, ih1, ih2]
  · simp [remapEntries]
  · intro rest s nv hl ih
    obtain ⟨k', hk'⟩ := lookupMap_mem hl
    have hnv := hm (k', nv) hk'
    have hw : lookupMap m (lowerStr (if low = true then lowerStr nv else nv)) = none := by
      cases low
      · simpa using hnv
      · simpa [lowerStr_idem] using hnv
    simp [remapEntries, hl, hw, ih]
  · intro rest s hl ih
    simp [remapEntries, hl, ih]
  · intro rest n ih; simp [remapEntries, ih]
  · intro rest b ih; simp [remapEntries, ih]
  · intro rest ih; simp [remapEntries, ih]
  · intro rest xs ih1 ih2; simp [remapEntries, ih1, ih2]
  · intro rest kvs ih1 ih2; simp [remapEntries, ih1, ih2]
  · intro k rest hk s ih; simp [remapEntries, hk, ih]
  · intro k rest hk n ih; simp [remapEntries, hk, ih]
  · intro k rest hk b ih; simp [remapEntries, hk, ih]
  · intro k rest hk ih; simp [remapEntries, hk, ih]
  · intro k rest hk xs ih1 ih2; simp [remapEntries, hk, ih1, ih2]
  · intro k rest hk kvs ih1 ih2; simp [remapEntries, hk, ih1, ih2]

/-- **C7.** When no replacement value of the mapping is itself
(case-insensitively) a key of the mapping, the remapper is idempotent:
a second run with the same mapping over its own output performs zero
replacements and returns the document unchanged. -/
theorem C7_remapper_idempotent (field : String) (low : Bool)
    (m : List (String × String))
    (hm : ∀ kv ∈ m, lookupMap m (lowerStr kv.2) = none) (d : Doc) :
    remapDoc field low m (remapDoc field low m d).1 =
      ((remapDoc field low m d).1, 0) :=
  (remap_idem_mutual field low m hm).1 d

/-- Witness for C7 at a concrete document and mapping. -/
theorem C7_witness :
    (∀ kv ∈ [("abc", "NEW-9")], lookupMap [("abc", "NEW-9")] (lowerStr kv.2) = none)
    ∧ remapDoc "PageUUID" false [("abc", "NEW-9")]
        (remapDoc "PageUUID" false [("abc", "NEW-9")]
          (Doc.obj [("PageUUID", Doc.str "ABC")])).1 =
      ((remapDoc "PageUUID" false [("abc", "NEW-9")]
          (Doc.obj [("PageUUID", Doc.str "ABC")])).1, 0) := by
  constructor
  · intro kv hkv
    simp only [List.mem_singleton] at hkv
    subst hkv
    simp [lookupMap, lowerStr]
  · exact C7_remapper_idempotent "PageUUID" false [("abc", "NEW-9")]
      (by
        intro kv hkv
        simp only [List.mem_singleton] at hkv
        subst hkv
        simp [lookupMap, lowerStr]) _

/-!
## C5: profile lookup is case-sensitive
-/

/-- **C5, counterexample.** The store holds exactly one profile, with
identifier `ABC`; querying `abc` — which differs only in letter case —
returns not-found, because `getProfileById` compares with strict `===`.
The claim says the profile should be returned. -/
theorem C5_counterexample :
    (getAllProfiles fsC5).map Profile.id = ["ABC"]
    ∧ lowerStr "abc" = lowerStr "ABC"
    ∧ "abc" ≠ "ABC"
    ∧ getProfileById fsC5 "abc" = none := by
  refine ⟨rfl, by decide, by decide, rfl⟩

/-- **C5, amended.** Profile lookup is case-sensitive: `getProfileById`
returns a profile exactly when its stored identifier equals the queried
string byte-for-byte; otherwise (including identifiers differing only in
case) it returns not-found. -/
theorem C5_amended_lookup_case_sensitive (fs : FS) (q : String) :
    (∀ p, getProfileById fs q = some p → p.id = q)
    ∧ (getProfileById fs q = none ↔ ∀ p ∈ getAllProfiles fs, p.id ≠ q) := by
  constructor
  · intro p hp
    have h := List.find?_some hp
    simpa using h
  · unfold getProfileById
    rw [List.find?_eq_none]
    constructor
    · intro h p hp
      have := h p hp
      simpa using this
    · intro h p hp
      simpa using h p hp

/-- Witness for C5's amended statement at the concrete store. -/
theorem C5_amended_witness :
    getProfileById fsC5 "ABC" =
      some { id := "ABC", path := joinPath profilesV3Path "ABC.sdProfile",
             manifest := .obj [] }
    ∧ (Profile.mk "ABC" (joinPath profilesV3Path "ABC.sdProfile") (.obj [])).id
        = "ABC" :=
  ⟨rfl, (C5_amended_lookup_case_sensitive fsC5 "ABC").1
      { id := "ABC", path := joinPath profilesV3Path "ABC.sdProfile",
        manifest := .obj [] } rfl⟩

/-!
## C1: the bulk copy never touches the preference store
-/

theorem setDirPages_prefs (fs : FS) (p : String) (pages : List PageDir) :
    (setDirPages fs p pages).prefs = fs.prefs := rfl

theorem setDirManifest_prefs (fs : FS) (p : String) (f : File) :
    (setDirManifest fs p f).prefs = fs.prefs := rfl

theorem regeneratePageUuids_prefs (fs : FS) (p : String) :
    ((regeneratePageUuids fs p).2).prefs = fs.prefs := by
  unfold regeneratePageUuids
  split
  · rfl
  · rfl

theorem copyProfile_prefs (fs : FS) (a b c : String) :
    ((copyProfile fs a b c).2).prefs = fs.prefs := by
  unfold copyProfile
  dsimp only
  repeat' split
  all_goals first
    | rfl
    | exact regeneratePageUuids_prefs _ _

theorem remapProfileReferences_prefs (fs : FS) (p : String)
    (m : List (String × String)) :
    ((remapProfileReferences fs p m).2).prefs = fs.prefs := by
  unfold remapProfileReferences
  split
  · rfl
  · rfl

theorem phase1_prefs (t mdl : String) (ps : List Profile) (fs : FS)
    (m : List (String × String)) :
    ((phase1 t mdl ps fs m).2.2).prefs = fs.prefs := by
  induction ps generalizing fs m with
  | nil => rfl
  | cons p rest ih =>
    rw [phase1]
    cases hcp : copyProfile fs p.id t mdl with
    | mk r fs' =>
      have hp : fs'.prefs = fs.prefs := by
        have := copyProfile_prefs fs p.id t mdl
        rw [hcp] at this
        exact this
      cases r with
      | ok r => simpa [ih] using hp
      | error e => simpa [ih] using hp

theorem phase2_prefs (m : List (String × String)) (items : List CopyItem) (fs : FS) :
    ((phase2 m items fs).2).prefs = fs.prefs := by
  induction items generalizing fs with
  | nil => rfl
  | cons item rest ih =>
    cases item with
    | ok r n =>
      rw [phase2]
      have hp := remapProfileReferences_prefs fs r.path m
      simpa [ih] using hp
    | fail oid nm e =>
      rw [phase2]
      exact ih fs

/-- **C1.** `copyAllProfiles` never reads, rewrites or writes the
external preference store: whatever state it is run in, the store after
the call is byte-identical to the store before it, and the returned
record consists of the per-profile result list alone.  The contract
claimed by the spec — a `devicePreferenceSummary` in the result and a
carry-forward of the source device's preferences through the batch
mapping — does not exist in the code (its own caller, the `copy-all` CLI
action, destructures a `preferences` field from this result and crashes
on it). -/
theorem C1_no_preference_carry_forward
    (fs : FS) (sourceDeviceUuid targetDeviceUuid targetDeviceModel : String) :
    ((copyAllProfiles fs sourceDeviceUuid targetDeviceUuid targetDeviceModel).2).prefs
      = fs.prefs := by
  unfold copyAllProfiles
  split
  · rfl
  · dsimp only
    rw [phase2_prefs, phase1_prefs]

/-- Witness for C1 at a concrete state: a known source device whose
preference record is present in the store; the copy succeeds and the
store — including the target device's empty slot — is unchanged. -/
theorem C1_witness :
    ((copyAllProfiles fsC1 "DEV-A" "DEV-B" "MB").2).prefs
      = [("DEV-A", prefsC1)] :=
  C1_no_preference_carry_forward fsC1 "DEV-A" "DEV-B" "MB"

/-!
## C9: round-trip of unrecognized fields
-/

theorem lookupEntries_setEntries_ne (kvs : List (String × Doc)) (k k' : String)
    (v : Doc) (h : k' ≠ k) :
    lookupEntries (Doc.setField.setEntries kvs k v) k' = lookupEntries kvs k' := by
  have hkk : ¬(k = k') := fun hh => h hh.symm
  induction kvs with
  | nil =>
    simp only [Doc.setField.setEntries, lookupEntries]
    exact if_neg hkk
  | cons kv rest ih =>
    obtain ⟨k0, v0⟩ := kv
    by_cases hk : k0 = k
    · subst hk
      simp only [Doc.setField.setEntries, if_pos rfl, lookupEntries]
      rw [if_neg hkk, if_neg hkk]
    · simp only [Doc.setField.setEntries, if_neg hk, lookupEntries]
      by_cases hk0 : k0 = k'
      · rw [if_pos hk0, if_pos hk0]
      · rw [if_neg hk0, if_neg hk0]
        exact ih

theorem getField_setField_ne (d : Doc) (k k' : String) (v : Doc) (h : k' ≠ k) :
    (d.setField k v).getField k' = d.getField k' := by
  cases d with
  | obj kvs => exact lookupEntries_setEntries_ne kvs k k' v h
  | str s => rfl
  | num n => rfl
  | bool b => rfl
  | null => rfl
  | arr xs => rfl

theorem lookupEntries_setEntries_self (kvs : List (String × Doc)) (k : String)
    (v : Doc) :
    lookupEntries (Doc.setField.setEntries kvs k v) k = some v := by
  induction kvs with
  | nil => simp [Doc.setField.setEntries, lookupEntries]
  | cons kv rest ih =>
    obtain ⟨k0, v0⟩ := kv
    by_cases hk : k0 = k
    · subst hk
      simp [Doc.setField.setEntries, lookupEntries]
    · simp [Doc.setField.setEntries, lookupEntries, hk, ih]

theorem getField_setField_obj (kvs : List (String × Doc)) (k : String) (v : Doc) :
    ((Doc.obj kvs).setField k v).getField k = some v := by
  exact lookupEntries_setEntries_self kvs k v

/-- `rewriteNavField` touches only the field it is given. -/
theorem rewriteNavField_frame (pages : Doc) (m : List (String × String))
    (k : String) (p : Doc) (hp : rewriteNavField pages m k = .ok p)
    (k' : String) (h : k' ≠ k) : p.getField k' = pages.getField k' := by
  unfold rewriteNavField at hp
  split at hp
  · exact (Except.ok.inj hp) ▸ rfl
  · split at hp
    · split at hp
      · exact absurd hp (by simp)
      · split at hp
        · rw [← Except.ok.inj hp]
          exact getField_setField_ne pages k k' _ h
        · exact (Except.ok.inj hp) ▸ rfl
    · exact (Except.ok.inj hp) ▸ rfl

/-- **C9.** Round-trip of unrecognized fields.  In the top-level
manifest rewrite of step 4 (device binding overwrite followed by the
page-navigation rewrite) every field other than `Device` and `Pages`
reads back unchanged, and inside the `Pages` record every field other
than `Current`, `Default` and `Pages` reads back unchanged.  In a page
manifest, the remapper changes nothing except string values sitting
directly under the recognized reference field name: strings elsewhere,
non-string leaves anywhere (even under the field name), the key set of
every nested map and the length of every nested sequence are preserved
at every depth. -/
theorem C9_round_trip (manifest dev : Doc) (m : List (String × String))
    (out : Doc) (hout : rewritePages (manifest.setField "Device" dev) m = .ok out)
    (field : String) (low : Bool) (mm : List (String × String)) (d : Doc)
    (π : List PathElem) :
    (∀ k, k ≠ "Device" → k ≠ "Pages" → out.getField k = manifest.getField k)
    ∧ (∀ k', k' ≠ "Current" → k' ≠ "Default" → k' ≠ "Pages" →
        (out.getField "Pages").map (fun p => p.getField k')
          = (manifest.getField "Pages").map (fun p => p.getField k'))
    ∧ (∀ s, lastElem π ≠ some (.key field) → d.getPath π = some (.str s) →
        (remapDoc field low mm d).1.getPath π = some (.str s))
    ∧ (∀ n : Int, d.getPath π = some (.num n) →
        (remapDoc field low mm d).1.getPath π = some (.num n))
    ∧ (∀ b : Bool, d.getPath π = some (.bool b) →
        (remapDoc field low mm d).1.getPath π = some (.bool b))
    ∧ (d.getPath π = some .null →
        (remapDoc field low mm d).1.getPath π = some .null)
    ∧ (∀ kvs : List (String × Doc), d.getPath π = some (.obj kvs) →
        ∃ kvs', (remapDoc field low mm d).1.getPath π = some (.obj kvs')
          ∧ kvs'.map Prod.fst = kvs.map Prod.fst)
    ∧ (∀ xs : List Doc, d.getPath π = some (.arr xs) →
        ∃ ys, (remapDoc field low mm d).1.getPath π = some (.arr ys)
          ∧ ys.length = xs.length) := by
  have hdev : ∀ k, k ≠ "Device" →
      (manifest.setField "Device" dev).getField k = manifest.getField k :=
    fun k hk => getField_setField_ne manifest "Device" k dev hk
  refine ⟨?_, ?_, ?_, ?_, ?_, ?_, ?_, ?_⟩
  · intro k hkD hkP
    unfold rewritePages at hout
    split at hout
    · rw [← Except.ok.inj hout]; exact hdev k hkD
    · split at hout
      · split at hout
        · exact absurd hout (by simp)
        · split at hout
          · exact absurd hout (by simp)
          · split at hout
            · split at hout
              · exact absurd hout (by simp)
              · rw [← Except.ok.inj hout,
                  getField_setField_ne _ "Pages" k _ hkP]
                exact hdev k hkD
            · rw [← Except.ok.inj hout,
                getField_setField_ne _ "Pages" k _ hkP]
              exact hdev k hkD
      · rw [← Except.ok.inj hout]; exact hdev k hkD
  · intro k' hc hd hp
    unfold rewritePages at hout
    split at hout
    · next hnone =>
      rw [← Except.ok.inj hout, hdev "Pages" (by decide)]
    · next pagesDoc hsome =>
      have hobj : ∃ kvs, manifest.setField "Device" dev = Doc.obj kvs := by
        cases hm : manifest.setField "Device" dev with
        | obj kvs => exact ⟨kvs, rfl⟩
        | str s => rw [hm] at hsome; exact absurd hsome (by simp [Doc.getField])
        | num n => rw [hm] at hsome; exact absurd hsome (by simp [Doc.getField])
        | bool b => rw [hm] at hsome; exact absurd hsome (by simp [Doc.getField])
        | null => rw [hm] at hsome; exact absurd hsome (by simp [Doc.getField])
        | arr l => rw [hm] at hsome; exact absurd hsome (by simp [Doc.getField])
      obtain ⟨kvs, hkvs⟩ := hobj
      have hcase : manifest.getField "Pages" = some pagesDoc := by
        rw [← hdev "Pages" (by decide)]
        exact hsome
      split at hout
      · split at hout
        · exact absurd hout (by simp)
        · next p1 hnav1 =>
          split at hout
          · exact absurd hout (by simp)
          · next p2 hnav2 =>
            have hp1 : ∀ kk, kk ≠ "Current" → p1.getField kk = pagesDoc.getField kk :=
              fun kk h => rewriteNavField_frame pagesDoc m "Current" p1 hnav1 kk h
            have hp2 : ∀ kk, kk ≠ "Default" → kk ≠ "Current" →
                p2.getField kk = pagesDoc.getField kk :=
              fun kk h h' =>
                (rewriteNavField_frame p1 m "Default" p2 hnav2 kk h).trans (hp1 kk h')
            split at hout
            · split at hout
              · exact absurd hout (by simp)
              · next xs' hxs =>
                rw [← Except.ok.inj hout, hkvs, getField_setField_obj, hcase]
                simp only [Option.map]
                rw [getField_setField_ne _ "Pages" k' _ hp, hp2 k' hd hc]
            · rw [← Except.ok.inj hout, hkvs, getField_setField_obj, hcase]
              simp only [Option.map]
              rw [hp2 k' hd hc]
      · rw [← Except.ok.inj hout, hdev "Pages" (by decide)]
  · intro s hoff hs
    rw [remapDoc_getPath, hs]
    have hdec : decide (lastElem π = some (.key field)) = false := by
      simpa using hoff
    rw [hdec]
    rfl
  · intro n h
    rw [remapDoc_getPath, h]
    cases hc : decide (lastElem π = some (.key field)) <;> rfl
  · intro b h
    rw [remapDoc_getPath, h]
    cases hc : decide (lastElem π = some (.key field)) <;> rfl
  · intro h
    rw [remapDoc_getPath, h]
    cases hc : decide (lastElem π = some (.key field)) <;> rfl
  · intro kvs h
    rw [remapDoc_getPath, h]
    exact ⟨(remapEntries field low mm kvs).1,
      by cases hc : decide (lastElem π = some (.key field)) <;> simp [remapUnder],
      remapEntries_keys field low mm kvs⟩
  · intro xs h
    rw [remapDoc_getPath, h]
    exact ⟨(remapArr field low mm xs).1,
      by cases hc : decide (lastElem π = some (.key field)) <;> simp [remapUnder],
      remapArr_length field low mm xs⟩

/-- Witness for C9 at a concrete manifest: the unrecognized fields
`Custom` (top level) and `Extra` (inside `Pages`) round-trip unchanged
while `Current` is rewritten; in a page manifest a string under an
unrecognized key is untouched by the remapper. -/
theorem C9_witness :
    rewritePages (manifestC9.setField "Device" devC9) [("pga", "bb-2")] = .ok outC9
    ∧ outC9.getField "Custom" = manifestC9.getField "Custom"
    ∧ (outC9.getField "Pages").map (fun p => p.getField "Extra")
        = (manifestC9.getField "Pages").map (fun p => p.getField "Extra")
    ∧ (remapDoc "PageUUID" false [("pga", "bb-2")]
        (Doc.obj [("Other", .str "PGA")])).1.getPath [.key "Other"]
        = some (.str "PGA") := by
  have h := C9_round_trip manifestC9 devC9 [("pga", "bb-2")] outC9 rfl
    "PageUUID" false [("pga", "bb-2")] (Doc.obj [("Other", .str "PGA")])
    [.key "Other"]
  exact ⟨rfl, h.1 "Custom" (by decide) (by decide),
    h.2.1 "Extra" (by decide) (by decide) (by decide),
    h.2.2.1 "PGA" (by decide) rfl⟩

/-!
## Computed description of a `copyProfile` run

`copyProfile_run_spec` evaluates `copyProfile` symbolically under the
freshness hypothesis that the minted profile identifier does not collide
with an existing directory name (which `randomUUID()` guarantees); it is
the workhorse behind the duplication claims.
-/

theorem append_left_cancel_str (s : String) {a b : String} (h : s ++ a = s ++ b) :
    a = b := by
  have hd : (s ++ a).data = (s ++ b).data := congrArg String.data h
  simp only [String.data_append] at hd
  exact String.ext (List.append_cancel_left hd)

theorem joinPath_inj (r : String) {a b : String} (h : joinPath r a = joinPath r b) :
    a = b := by
  unfold joinPath at h
  exact append_left_cancel_str (r ++ "/") h

theorem find?_dirs_none (l : List ProfileDir) (nm : String)
    (hfresh : ∀ d ∈ l, d.name ≠ nm) :
    List.find? (fun d => decide (joinPath profilesV3Path d.name
      = joinPath profilesV3Path nm)) l = none := by
  rw [List.find?_eq_none]
  intro d hd
  simp only [decide_eq_true_eq]
  intro hjoin
  exact hfresh d hd (joinPath_inj _ hjoin)

theorem findDirByPath_append_last (fs : FS) (l : List ProfileDir) (c : ProfileDir)
    (hl : fs.profiles = l ++ [c]) (hfresh : ∀ d ∈ l, d.name ≠ c.name) :
    findDirByPath fs (joinPath profilesV3Path c.name) = some c := by
  unfold findDirByPath
  rw [hl, List.find?_append, find?_dirs_none l c.name hfresh]
  simp [List.find?]

theorem setDirPages_append_last (fs : FS) (l : List ProfileDir) (c : ProfileDir)
    (hl : fs.profiles = l ++ [c]) (hfresh : ∀ d ∈ l, d.name ≠ c.name)
    (pages : List PageDir) :
    setDirPages fs (joinPath profilesV3Path c.name) pages =
      { fs with profiles := l ++ [{ c with pages := pages }] } := by
  unfold setDirPages
  have hmap : fs.profiles.map (fun d =>
      if joinPath profilesV3Path d.name = joinPath profilesV3Path c.name
      then { d with pages := pages } else d) = l ++ [{ c with pages := pages }] := by
    rw [hl, List.map_append]
    congr 1
    · have hpt := List.map_congr_left (l := l)
        (f := fun d : ProfileDir =>
          if joinPath profilesV3Path d.name = joinPath profilesV3Path c.name
          then { d with pages := pages } else d)
        (g := id)
        (fun d hd => by
          dsimp only
          rw [if_neg]
          · rfl
          · intro hjoin
            exact hfresh d hd (joinPath_inj _ hjoin))
      rw [hpt, List.map_id]
    · simp
  rw [hmap]

theorem setDirManifest_append_last (fs : FS) (l : List ProfileDir) (c : ProfileDir)
    (hl : fs.profiles = l ++ [c]) (hfresh : ∀ d ∈ l, d.name ≠ c.name)
    (f : File) :
    setDirManifest fs (joinPath profilesV3Path c.name) f =
      { fs with profiles := l ++ [{ c with manifest := f }] } := by
  unfold setDirManifest
  have hmap : fs.profiles.map (fun d =>
      if joinPath profilesV3Path d.name = joinPath profilesV3Path c.name
      then { d with manifest := f } else d) = l ++ [{ c with manifest := f }] := by
    rw [hl, List.map_append]
    congr 1
    · have hpt := List.map_congr_left (l := l)
        (f := fun d : ProfileDir =>
          if joinPath profilesV3Path d.name = joinPath profilesV3Path c.name
          then { d with manifest := f } else d)
        (g := id)
        (fun d hd => by
          dsimp only
          rw [if_neg]
          · rfl
          · intro hjoin
            exact hfresh d hd (joinPath_inj _ hjoin))
      rw [hpt, List.map_id]
    · simp
  rw [hmap]

theorem regeneratePageUuids_append_last (fs : FS) (l : List ProfileDir)
    (c : ProfileDir) (hl : fs.profiles = l ++ [c])
    (hfresh : ∀ d ∈ l, d.name ≠ c.name) :
    regeneratePageUuids fs (joinPath profilesV3Path c.name) =
      ((renamePages c.pages fs.supply []).2.1,
       { fs with
         profiles := l ++ [{ c with pages :=
           (remapManifests "PageUUID" false (renamePages c.pages fs.supply []).2.1
             fs.failWrites
             (joinPath (joinPath profilesV3Path c.name) "Profiles")
             (renamePages c.pages fs.supply []).1).1 }],
         supply := (renamePages c.pages fs.supply []).2.2 }) := by
  unfold regeneratePageUuids
  rw [findDirByPath_append_last fs l c hl hfresh]
  dsimp only
  rw [setDirPages_append_last
    { fs with supply := (renamePages c.pages fs.supply []).2.2 } l c hl hfresh]

/-- Symbolic evaluation of a `copyProfile` call: with the source profile
resolving to directory `srcDir`, the next `randomUUID()` value `u`, and
the minted directory name fresh among the existing ones, the run reduces
to the step-4 case analysis over an explicitly described intermediate
state. -/
theorem copyProfile_run_spec (fs : FS) (pid t mdl u : String)
    (supplyRest : List String) (hsupply : fs.supply = u :: supplyRest)
    (p : Profile) (hsp : getProfileById fs pid = some p)
    (srcDir : ProfileDir)
    (hsrc : findDirByPath { fs with supply := supplyRest } p.path = some srcDir)
    (hfresh : ∀ d ∈ fs.profiles, d.name ≠ upperStr u ++ ".sdProfile") :
    copyProfile fs pid t mdl =
      (let newName := upperStr u ++ ".sdProfile"
       let newPath := joinPath profilesV3Path newName
       let rp := renamePages srcDir.pages supplyRest []
       let mapping := rp.2.1
       let pages2 := (remapManifests "PageUUID" false mapping fs.failWrites
         (joinPath newPath "Profiles") rp.1).1
       let clone1 : ProfileDir :=
         { name := newName, manifest := srcDir.manifest, pages := pages2 }
       let fs3 : FS :=
         { profiles := fs.profiles ++ [clone1], supply := rp.2.2,
           failWrites := fs.failWrites, prefs := fs.prefs }
       match srcDir.manifest with
       | .corrupt => (.error "SyntaxError: Unexpected token in JSON", fs3)
       | .json manifest0 =>
         match rewritePages (manifest0.setField "Device"
             (.obj [("Model", .str mdl), ("UUID", .str t)])) mapping with
         | .error e => (.error e, fs3)
         | .ok manifest2 =>
           if joinPath newPath "manifest.json" ∈ fs.failWrites then
             (.error "EIO: i/o error, write", fs3)
           else
             (.ok { id := upperStr u, path := newPath, originalId := pid,
                    name := manifest2.getField "Name",
                    pageUuidMapping := mapping },
              { profiles := fs.profiles ++
                  [{ clone1 with manifest := .json manifest2 }],
                supply := rp.2.2, failWrites := fs.failWrites,
                prefs := fs.prefs })) := by
  unfold copyProfile
  rw [hsp]
  dsimp only
  rw [hsupply]
  simp only [mintS]
  rw [hsrc]
  dsimp only
  rw [regeneratePageUuids_append_last
    { profiles := fs.profiles ++
        [{ name := upperStr u ++ ".sdProfile", manifest := srcDir.manifest,
           pages := srcDir.pages }],
      supply := supplyRest, failWrites := fs.failWrites, prefs := fs.prefs }
    fs.profiles
    { name := upperStr u ++ ".sdProfile", manifest := srcDir.manifest,
      pages := srcDir.pages }
    rfl hfresh]
  dsimp only
  rw [findDirByPath_append_last _ fs.profiles
    { name := upperStr u ++ ".sdProfile", manifest := srcDir.manifest,
      pages := _ } rfl hfresh]
  dsimp only
  cases srcDir.manifest with
  | corrupt => rfl
  | json manifest0 =>
    dsimp only
    cases hrw : rewritePages (manifest0.setField "Device"
        (.obj [("Model", .str mdl), ("UUID", .str t)]))
        (renamePages srcDir.pages supplyRest []).2.1 with
    | error e => rfl
    | ok manifest2 =>
      dsimp only
      by_cases hmem : joinPath (joinPath profilesV3Path (upperStr u ++ ".sdProfile"))
          "manifest.json" ∈ fs.failWrites
      · rw [if_pos hmem, if_pos hmem]
      · rw [if_neg hmem, if_neg hmem]
        rw [setDirManifest_append_last _ fs.profiles
          { name := upperStr u ++ ".sdProfile", manifest := File.json manifest0,
            pages := _ } rfl hfresh]


/-!
## C3: duplication regenerates every page identifier
-/

theorem renamePages_fst_length (pages : List PageDir) (supply : List String)
    (m0 : List (String × String)) :
    ((renamePages pages supply m0).1).length = pages.length := by
  induction pages generalizing supply m0 with
  | nil => rfl
  | cons pg rest ih => simp [renamePages, ih]

theorem renamePages_fst_names (pages : List PageDir) (supply : List String)
    (m0 : List (String × String)) (h : pages.length ≤ supply.length) :
    ((renamePages pages supply m0).1).map PageDir.name
      = (supply.take pages.length).map upperStr := by
  induction pages generalizing supply m0 with
  | nil => simp [renamePages]
  | cons pg rest ih =>
    cases supply with
    | nil => simp at h
    | cons v vs =>
      have h' : rest.length ≤ vs.length := by simpa using h
      simp [renamePages, mintS, ih vs _ h']

theorem renamePages_supply (pages : List PageDir) (supply : List String)
    (m0 : List (String × String)) (h : pages.length ≤ supply.length) :
    (renamePages pages supply m0).2.2 = supply.drop pages.length := by
  induction pages generalizing supply m0 with
  | nil => simp [renamePages]
  | cons pg rest ih =>
    cases supply with
    | nil => simp at h
    | cons v vs =>
      have h' : rest.length ≤ vs.length := by simpa using h
      simp [renamePages, mintS, ih vs _ h']

theorem remapManifests_names (f : String) (low : Bool)
    (m : List (String × String)) (fw : List String) (pp : String)
    (pages : List PageDir) :
    ((remapManifests f low m fw pp pages).1).map PageDir.name
      = pages.map PageDir.name := by
  induction pages with
  | nil => rfl
  | cons pg rest ih =>
    obtain ⟨nm, mf⟩ := pg
    cases mf with
    | corrupt => simp [remapManifests, ih]
    | json d0 =>
      by_cases h0 : (remapDoc f low m d0).2 = 0
      · simp [remapManifests, h0, ih]
      · by_cases hw : joinPath (joinPath pp nm) "manifest.json" ∈ fw
        · simp [remapManifests, h0, hw, ih]
        · simp [remapManifests, h0, hw, ih]

theorem remapManifests_length (f : String) (low : Bool)
    (m : List (String × String)) (fw : List String) (pp : String)
    (pages : List PageDir) :
    ((remapManifests f low m fw pp pages).1).length = pages.length := by
  have h := congrArg List.length (remapManifests_names f low m fw pp pages)
  simpa using h

/-- **C3.** A successful duplication of a profile with `N` nested pages
produces a clone whose storage subtree contains exactly `N` pages, and —
because every page identifier is freshly minted, never copied — none of
the clone's page identifiers equals any identifier of the original
subtree (neither the original profile's identifier nor any of its page
identifiers).  The freshness hypotheses mirror `randomUUID()`'s
guarantee that minted values are new. -/
theorem C3_duplication_regenerates_pages (fs : FS) (pid t mdl u : String)
    (supplyRest : List String) (hsupply : fs.supply = u :: supplyRest)
    (p : Profile) (hsp : getProfileById fs pid = some p)
    (srcDir : ProfileDir)
    (hsrc : findDirByPath { fs with supply := supplyRest } p.path = some srcDir)
    (hfresh : ∀ d ∈ fs.profiles, d.name ≠ upperStr u ++ ".sdProfile")
    (hlen : srcDir.pages.length ≤ supplyRest.length)
    (hpage : ∀ v ∈ supplyRest.take srcDir.pages.length,
        upperStr v ∉ p.id :: srcDir.pages.map PageDir.name)
    (r : CopyResult) (fs' : FS)
    (hrun : copyProfile fs pid t mdl = (.ok r, fs')) :
    ∃ clone : ProfileDir,
      fs'.profiles = fs.profiles ++ [clone]
      ∧ clone.pages.length = srcDir.pages.length
      ∧ ∀ pg ∈ clone.pages, pg.name ∉ p.id :: srcDir.pages.map PageDir.name := by
  rw [copyProfile_run_spec fs pid t mdl u supplyRest hsupply p hsp srcDir hsrc
    hfresh] at hrun
  dsimp only at hrun
  cases hm : srcDir.manifest with
  | corrupt =>
    rw [hm] at hrun
    exact absurd (congrArg Prod.fst hrun) (by simp)
  | json manifest0 =>
    rw [hm] at hrun
    dsimp only at hrun
    cases hrw : rewritePages (manifest0.setField "Device"
        (.obj [("Model", .str mdl), ("UUID", .str t)]))
        (renamePages srcDir.pages supplyRest []).2.1 with
    | error e =>
      rw [hrw] at hrun
      exact absurd (congrArg Prod.fst hrun) (by simp)
    | ok manifest2 =>
      rw [hrw] at hrun
      dsimp only at hrun
      by_cases hmem : joinPath (joinPath profilesV3Path (upperStr u ++ ".sdProfile"))
          "manifest.json" ∈ fs.failWrites
      · rw [if_pos hmem] at hrun
        exact absurd (congrArg Prod.fst hrun) (by simp)
      · rw [if_neg hmem] at hrun
        have hfs' := congrArg Prod.snd hrun
        have hnames : ((remapManifests "PageUUID" false
            (renamePages srcDir.pages supplyRest []).2.1 fs.failWrites
            (joinPath (joinPath profilesV3Path (upperStr u ++ ".sdProfile"))
              "Profiles")
            (renamePages srcDir.pages supplyRest []).1).1).map PageDir.name
            = (supplyRest.take srcDir.pages.length).map upperStr := by
          rw [remapManifests_names, renamePages_fst_names _ _ _ hlen]
        refine ⟨⟨upperStr u ++ ".sdProfile", .json manifest2,
          (remapManifests "PageUUID" false
            (renamePages srcDir.pages supplyRest []).2.1 fs.failWrites
            (joinPath (joinPath profilesV3Path (upperStr u ++ ".sdProfile"))
              "Profiles")
            (renamePages srcDir.pages supplyRest []).1).1⟩, ?_, ?_, ?_⟩
        · exact (congrArg FS.profiles hfs'.symm)
        · dsimp only
          rw [remapManifests_length, renamePages_fst_length]
        · intro pg hpg
          dsimp only at hpg
          have hmemname : pg.name
              ∈ (supplyRest.take srcDir.pages.length).map upperStr := by
            rw [← hnames]
            exact List.mem_map_of_mem PageDir.name hpg
          obtain ⟨v, hv, hveq⟩ := List.mem_map.mp hmemname
          rw [← hveq]
          exact hpage v hv


/-- Witness for C3 at the concrete two-page profile: the run appends
exactly one directory (the clone described by the theorem). -/
theorem C3_witness :
    ((copyProfile fsC3 "P1" "DEV-B" "MB").2).profiles.length
      = fsC3.profiles.length + 1 := by
  have hspec := copyProfile_run_spec fsC3 "P1" "DEV-B" "MB" "aa-1" ["bb-2", "cc-3"]
    rfl pC3 rfl dirC3 rfl (by decide)
  have hrun : copyProfile fsC3 "P1" "DEV-B" "MB" =
      (.ok { id := upperStr "aa-1",
             path := joinPath profilesV3Path (upperStr "aa-1" ++ ".sdProfile"),
             originalId := "P1",
             name := some (.str "One"),
             pageUuidMapping := (renamePages dirC3.pages ["bb-2", "cc-3"] []).2.1 },
       (copyProfile fsC3 "P1" "DEV-B" "MB").2) := by
    conv_lhs => rw [hspec]
    conv_rhs => rw [hspec]
    rfl
  obtain ⟨clone, h1, h2, h3⟩ := C3_duplication_regenerates_pages fsC3 "P1"
    "DEV-B" "MB" "aa-1" ["bb-2", "cc-3"] rfl pC3 rfl dirC3 rfl (by decide)
    (by decide) (by decide) _ _ hrun
  rw [h1]
  simp


/-!
## C4: failure after cloning
-/

/-- **C4, amended.** When the top-level manifest rewrite (step 4) fails
after the subtree was cloned — the write path being on the failing list —
`copyProfile` reports the failure as an error to its caller, and the
partially-rewritten clone remains on storage as an orphan: exactly one
new directory is appended and nothing is rolled back.  (Step-3 persist
failures, by contrast, are caught inside `regeneratePageUuids` and
masked — see the counterexample.) -/
theorem C4_amended_step4_reported_orphan (fs : FS) (pid t mdl u : String)
    (supplyRest : List String) (hsupply : fs.supply = u :: supplyRest)
    (p : Profile) (hsp : getProfileById fs pid = some p)
    (srcDir : ProfileDir)
    (hsrc : findDirByPath { fs with supply := supplyRest } p.path = some srcDir)
    (hfresh : ∀ d ∈ fs.profiles, d.name ≠ upperStr u ++ ".sdProfile")
    (hmem : joinPath (joinPath profilesV3Path (upperStr u ++ ".sdProfile"))
      "manifest.json" ∈ fs.failWrites) :
    ∃ e clone,
      (copyProfile fs pid t mdl).1 = .error e
      ∧ ((copyProfile fs pid t mdl).2).profiles = fs.profiles ++ [clone] := by
  rw [copyProfile_run_spec fs pid t mdl u supplyRest hsupply p hsp srcDir hsrc
    hfresh]
  dsimp only
  cases srcDir.manifest with
  | corrupt => exact ⟨_, _, rfl, rfl⟩
  | json manifest0 =>
    dsimp only
    cases rewritePages (manifest0.setField "Device"
        (.obj [("Model", .str mdl), ("UUID", .str t)]))
        (renamePages srcDir.pages supplyRest []).2.1 with
    | error e => exact ⟨e, _, rfl, rfl⟩
    | ok manifest2 =>
      dsimp only
      rw [if_pos hmem]
      exact ⟨_, _, rfl, rfl⟩

/-- Witness for the amended C4: with the clone's top-level manifest on
the failing list, the failed duplication leaves one extra directory — the
orphan — on storage. -/
theorem C4_amended_witness :
    ((copyProfile fsC4b "P1" "DEV-B" "MB").2).profiles.length
      = fsC4b.profiles.length + 1 := by
  obtain ⟨e, clone, h1, h2⟩ := C4_amended_step4_reported_orphan fsC4b "P1"
    "DEV-B" "MB" "aa-1" ["bb-2", "cc-3"] rfl pC4 rfl dirC4 rfl (by decide)
    (by decide)
  rw [h2]
  simp


/-- **C4, counterexample.** A step-3 persist failure is masked, not
reported: with the clone's first page manifest on the failing write list,
the page's `PageUUID` reference was due for rewriting (its lowercase form
is a key of the page mapping), the write failed, the stale manifest keeps
the old reference — and `copyProfile` still returns success, where the
claim requires the failure to be surfaced as an error. -/
theorem C4_counterexample :
    (copyProfile fsC4 "P1" "DEV-B" "MB").1
      = .ok { id := "AA-1", path := "ProfilesV3/AA-1.sdProfile",
              originalId := "P1", name := some (.str "One"),
              pageUuidMapping := [("pga", "bb-2"), ("pgb", "cc-3")] }
    ∧ lookupMap [("pga", "bb-2"), ("pgb", "cc-3")] (lowerStr "pgb") = some "cc-3"
    ∧ pageManifestOf (copyProfile fsC4 "P1" "DEV-B" "MB").2 "AA-1.sdProfile" "BB-2"
      = some (.json (.obj [("PageUUID", .str "pgb")])) := by
  have hspec := copyProfile_run_spec fsC4 "P1" "DEV-B" "MB" "aa-1" ["bb-2", "cc-3"]
    rfl pC4 rfl dirC4 rfl (by decide)
  have e1 : lowerStr "pgb" = "pgb" := by decide
  have e0 : lowerStr "pga" = "pga" := by decide
  have hRemapA : remapDoc "PageUUID" false [("pga", "bb-2"), ("pgb", "cc-3")]
      (Doc.obj [("PageUUID", Doc.str "pgb")])
      = (Doc.obj [("PageUUID", Doc.str "cc-3")], 1) := by
    simp [remapDoc, remapEntries, lookupMap, e1]
  have hRemapB : remapDoc "PageUUID" false [("pga", "bb-2"), ("pgb", "cc-3")]
      (Doc.obj []) = (Doc.obj [], 0) := by
    simp [remapDoc, remapEntries]
  have hmemA : joinPath (joinPath "ProfilesV3/AA-1.sdProfile/Profiles" "BB-2")
      "manifest.json" ∈ fsC4.failWrites := by decide
  have hMan : remapManifests "PageUUID" false [("pga", "bb-2"), ("pgb", "cc-3")]
      fsC4.failWrites "ProfilesV3/AA-1.sdProfile/Profiles"
      [{ name := "BB-2", manifest := .json (.obj [("PageUUID", .str "pgb")]) },
       { name := "CC-3", manifest := .json (.obj []) }]
      = ([{ name := "BB-2", manifest := .json (.obj [("PageUUID", .str "pgb")]) },
          { name := "CC-3", manifest := .json (.obj []) }], 1) := by
    simp only [remapManifests, hRemapA, hRemapB]
    simp [hmemA]
  have hpath : joinPath (joinPath profilesV3Path (upperStr "aa-1" ++ ".sdProfile"))
      "Profiles" = "ProfilesV3/AA-1.sdProfile/Profiles" := by decide
  have hpages : (renamePages dirC4.pages ["bb-2", "cc-3"] []).1
      = [{ name := "BB-2", manifest := .json (.obj [("PageUUID", .str "pgb")]) },
         { name := "CC-3", manifest := .json (.obj []) }] := by
    simp [dirC4, pgC4a, pgC4b, renamePages, mintS, mapSet]
    constructor
    · decide
    · decide
  have hmapeq : (renamePages dirC4.pages ["bb-2", "cc-3"] []).2.1
      = [("pga", "bb-2"), ("pgb", "cc-3")] := by decide
  have hMan2 : remapManifests "PageUUID" false
      (renamePages dirC4.pages ["bb-2", "cc-3"] []).2.1 fsC4.failWrites
      (joinPath (joinPath profilesV3Path (upperStr "aa-1" ++ ".sdProfile"))
        "Profiles")
      (renamePages dirC4.pages ["bb-2", "cc-3"] []).1
      = ([{ name := "BB-2", manifest := .json (.obj [("PageUUID", .str "pgb")]) },
          { name := "CC-3", manifest := .json (.obj []) }], 1) := by
    rw [hmapeq, hpages, hpath]
    exact hMan
  have hfs2 : (copyProfile fsC4 "P1" "DEV-B" "MB").2
      = { profiles := [dirC4,
            { name := "AA-1.sdProfile",
              manifest := .json (.obj [("Name", .str "One"),
                ("Device", .obj [("Model", .str "MB"), ("UUID", .str "DEV-B")])]),
              pages := [{ name := "BB-2",
                          manifest := .json (.obj [("PageUUID", .str "pgb")]) },
                        { name := "CC-3", manifest := .json (.obj []) }] }],
          supply := [], failWrites := [failC4], prefs := [] } := by
    rw [hspec]
    dsimp only
    rw [hMan2]
    rfl
  refine ⟨?_, ?_, ?_⟩
  · rw [hspec]
    rfl
  · rw [e1]
    rfl
  · unfold pageManifestOf
    rw [hfs2]
    rfl


/-!
## C8: Phase 1 records failures per item and maps successes
-/

theorem mapSet_not_mem (m : List (String × String)) (k v : String)
    (h : ∀ kv ∈ m, kv.1 ≠ k) : mapSet m k v = m ++ [(k, v)] := by
  induction m with
  | nil => rfl
  | cons kv rest ih =>
    obtain ⟨k0, v0⟩ := kv
    rw [mapSet, if_neg (h (k0, v0) (List.mem_cons_self _ _))]
    rw [ih (fun kv hkv => h kv (List.mem_cons_of_mem _ hkv))]
    rfl

theorem copyProfile_ok_originalId (fs : FS) (pid t mdl : String)
    (r : CopyResult) (fs' : FS)
    (h : copyProfile fs pid t mdl = (.ok r, fs')) : r.originalId = pid := by
  unfold copyProfile at h
  dsimp only at h
  repeat' split at h
  all_goals first
    | (injection h with h1 h2; injection h1 with h3; subst h3; rfl)
    | (injection h with h1 h2; injection h1)

/-- Phase 1, for any starting accumulator: every source profile yields
exactly one item carrying its identifier, and — when the (lowercased)
source identifiers are pairwise distinct and disjoint from the
accumulator's keys — the final mapping is the accumulator extended by
exactly one entry per successful item, in order. -/
theorem phase1_spec (t mdl : String) :
    ∀ (ps : List Profile) (fs : FS) (m0 : List (String × String)),
    ((phase1 t mdl ps fs m0).1).map itemOriginalId = ps.map Profile.id
    ∧ (List.Pairwise (fun a b => a ≠ b) (ps.map (fun p => lowerStr p.id)) →
       (∀ kv ∈ m0, ∀ q ∈ ps, kv.1 ≠ lowerStr q.id) →
        (phase1 t mdl ps fs m0).2.1
          = m0 ++ (phase1 t mdl ps fs m0).1.filterMap itemMappingEntry) := by
  intro ps
  induction ps with
  | nil => intro fs m0; exact ⟨rfl, fun _ _ => by simp [phase1]⟩
  | cons p rest ih =>
    intro fs m0
    constructor
    · rw [phase1]
      cases hcp : copyProfile fs p.id t mdl with
      | mk res fs1 =>
        cases res with
        | ok r =>
          dsimp only
          have hoid : r.originalId = p.id := copyProfile_ok_originalId _ _ _ _ _ _ hcp
          simp only [List.map_cons, itemOriginalId, hoid]
          rw [(ih fs1 (mapSet m0 (lowerStr p.id) r.id)).1]
        | error e =>
          dsimp only
          simp only [List.map_cons, itemOriginalId]
          rw [(ih fs1 m0).1]
    · intro hpair hdisj
      rw [phase1]
      cases hcp : copyProfile fs p.id t mdl with
      | mk res fs1 =>
        cases res with
        | ok r =>
          dsimp only
          have hoid : r.originalId = p.id := copyProfile_ok_originalId _ _ _ _ _ _ hcp
          have hset : mapSet m0 (lowerStr r.originalId) r.id
              = m0 ++ [(lowerStr r.originalId, r.id)] := by
            apply mapSet_not_mem
            intro kv hkv
            rw [hoid]
            exact hdisj kv hkv p (List.mem_cons_self _ _)
          have hdisj' : ∀ kv ∈ m0 ++ [(lowerStr r.originalId, r.id)],
              ∀ q ∈ rest, kv.1 ≠ lowerStr q.id := by
            intro kv hkv q hq
            rcases List.mem_append.mp hkv with hkv | hkv
            · exact hdisj kv hkv q (List.mem_cons_of_mem _ hq)
            · have hkv' : kv = (lowerStr r.originalId, r.id) := by
                simpa using hkv
              rw [hkv', hoid]
              have := (List.pairwise_cons.mp hpair).1 (lowerStr q.id)
                (List.mem_map_of_mem _ hq)
              exact this
          have hrest := (ih fs1 (m0 ++ [(lowerStr r.originalId, r.id)])).2
            (List.pairwise_cons.mp hpair).2 hdisj'
          rw [hset] at *
          rw [hrest]
          simp [itemMappingEntry]
        | error e =>
          dsimp only
          have hdisj' : ∀ kv ∈ m0, ∀ q ∈ rest, kv.1 ≠ lowerStr q.id :=
            fun kv hkv q hq => hdisj kv hkv q (List.mem_cons_of_mem _ hq)
          have hrest := (ih fs1 m0).2 (List.pairwise_cons.mp hpair).2 hdisj'
          rw [hrest]
          simp [itemMappingEntry]

/-- **C8.** In Phase 1 of a bulk copy, every source profile yields
exactly one item of the result list — a failed duplication is recorded
as that profile's per-item error without aborting the remaining
duplications — and the batch mapping holds exactly one
lowercase-normalized `old -> new` entry per successful item and none for
failed ones. -/
theorem C8_phase1_per_item_and_mapping (t mdl : String) (ps : List Profile)
    (fs : FS) :
    ((phase1 t mdl ps fs []).1).map itemOriginalId = ps.map Profile.id
    ∧ (List.Pairwise (fun a b => a ≠ b) (ps.map (fun p => lowerStr p.id)) →
        (phase1 t mdl ps fs []).2.1
          = (phase1 t mdl ps fs []).1.filterMap itemMappingEntry) := by
  have h := phase1_spec t mdl ps fs []
  exact ⟨h.1, fun hp => (h.2 hp (by simp)).trans (by simp)⟩

/-- Witness for C8: three profiles on `DEV-A`, the middle one poisoned
(`Pages.Current` is a number).  Phase 1 yields one item per profile in
order, and the mapping holds exactly the two successful entries. -/
theorem C8_witness :
    ((phase1 "DEV-B" "MB" psC8 fsC8 []).1).map itemOriginalId
      = ["P1", "P2", "P3"]
    ∧ (phase1 "DEV-B" "MB" psC8 fsC8 []).2.1
      = [("p1", "AA-1"), ("p3", "CC-3")] := by
  have h := C8_phase1_per_item_and_mapping "DEV-B" "MB" psC8 fsC8
  constructor
  · rw [h.1]
    rfl
  · rw [h.2 (by decide)]
    rfl

/-!
## C10: case discipline of minted names, mapping keys and rewritten values
-/

theorem renamePages_mapping (pages : List PageDir) (supply : List String)
    (m0 : List (String × String)) (hlen : pages.length ≤ supply.length)
    (hdisj : ∀ kv ∈ m0, ∀ pg ∈ pages, kv.1 ≠ lowerStr pg.name)
    (hpair : List.Pairwise (fun a b => a ≠ b)
      (pages.map (fun pg => lowerStr pg.name))) :
    (renamePages pages supply m0).2.1
      = m0 ++ List.zipWith
          (fun pg v => (lowerStr pg.name, lowerStr (upperStr v))) pages supply := by
  induction pages generalizing supply m0 with
  | nil => simp [renamePages]
  | cons pg rest ih =>
    cases supply with
    | nil => simp at hlen
    | cons v vs =>
      have hlen' : rest.length ≤ vs.length := by simpa using hlen
      have hset : mapSet m0 (lowerStr pg.name) (lowerStr (upperStr v))
          = m0 ++ [(lowerStr pg.name, lowerStr (upperStr v))] :=
        mapSet_not_mem _ _ _ (fun kv hkv => hdisj kv hkv pg (List.mem_cons_self _ _))
      have hdisj' : ∀ kv ∈ m0 ++ [(lowerStr pg.name, lowerStr (upperStr v))],
          ∀ q ∈ rest, kv.1 ≠ lowerStr q.name := by
        intro kv hkv q hq
        rcases List.mem_append.mp hkv with hkv | hkv
        · exact hdisj kv hkv q (List.mem_cons_of_mem _ hq)
        · have hkv' : kv = (lowerStr pg.name, lowerStr (upperStr v)) := by
            simpa using hkv
          rw [hkv']
          exact (List.pairwise_cons.mp hpair).1 (lowerStr q.name)
            (List.mem_map_of_mem _ hq)
      have hrest := ih vs (m0 ++ [(lowerStr pg.name, lowerStr (upperStr v))])
        hlen' hdisj' (List.pairwise_cons.mp hpair).2
      simp only [renamePages, mintS]
      rw [hset, hrest]
      simp

theorem zipWith_rename_entries_lower (pages : List PageDir) (supply : List String) :
    ∀ kv ∈ List.zipWith
        (fun pg v => (lowerStr pg.name, lowerStr (upperStr v))) pages supply,
      lowerStr kv.1 = kv.1 ∧ lowerStr kv.2 = kv.2 := by
  induction pages generalizing supply with
  | nil => intro kv hkv; simp at hkv
  | cons pg rest ih =>
    cases supply with
    | nil => intro kv hkv; simp at hkv
    | cons v vs =>
      intro kv hkv
      rcases List.mem_cons.mp hkv with h | h
      · rw [h]
        exact ⟨lowerStr_idem _, lowerStr_idem _⟩
      · exact ih vs kv h

theorem zipWith_rename_snd (pages : List PageDir) (supply : List String) :
    (List.zipWith (fun pg v => (lowerStr pg.name, lowerStr (upperStr v)))
        pages supply).map Prod.snd
      = (supply.take pages.length).map (fun v => lowerStr (upperStr v)) := by
  induction pages generalizing supply with
  | nil => simp
  | cons pg rest ih =>
    cases supply with
    | nil => simp
    | cons v vs => simp [ih vs]

/-- **C10, amended.** After a successful duplication, the minted profile
directory name and every minted page directory name are uppercase
identifiers (fixed points of `upperStr`), while every key and every
value of the returned page mapping — the values being exactly what the
remappers write into manifests — is lowercase-normalized (fixed by
`lowerStr`); each mapping value is precisely the lowercasing of the
corresponding stored page directory name, so a rewritten reference
matches its target's stored name case-insensitively, and equals it
byte-for-byte exactly when that name contains no cased letter (see the
counterexample: with digit-only identifiers the match IS byte-for-byte,
refuting the claim's ``never``). -/
theorem C10_amended_case_discipline (fs : FS) (pid t mdl u : String)
    (supplyRest : List String) (hsupply : fs.supply = u :: supplyRest)
    (p : Profile) (hsp : getProfileById fs pid = some p)
    (srcDir : ProfileDir)
    (hsrc : findDirByPath { fs with supply := supplyRest } p.path = some srcDir)
    (hfresh : ∀ d ∈ fs.profiles, d.name ≠ upperStr u ++ ".sdProfile")
    (hlen : srcDir.pages.length ≤ supplyRest.length)
    (hpair : List.Pairwise (fun a b => a ≠ b)
      (srcDir.pages.map (fun pg => lowerStr pg.name)))
    (r : CopyResult) (fs' : FS)
    (hrun : copyProfile fs pid t mdl = (.ok r, fs')) :
    ∃ clone : ProfileDir,
      fs'.profiles = fs.profiles ++ [clone]
      ∧ r.id = upperStr u
      ∧ upperStr r.id = r.id
      ∧ clone.name = r.id ++ ".sdProfile"
      ∧ (∀ pg ∈ clone.pages, upperStr pg.name = pg.name)
      ∧ (∀ kv ∈ r.pageUuidMapping, lowerStr kv.1 = kv.1 ∧ lowerStr kv.2 = kv.2)
      ∧ r.pageUuidMapping.map Prod.snd
          = clone.pages.map (fun pg => lowerStr pg.name) := by
  rw [copyProfile_run_spec fs pid t mdl u supplyRest hsupply p hsp srcDir hsrc
    hfresh] at hrun
  dsimp only at hrun
  cases hm : srcDir.manifest with
  | corrupt =>
    rw [hm] at hrun
    exact absurd (congrArg Prod.fst hrun) (by simp)
  | json manifest0 =>
    rw [hm] at hrun
    dsimp only at hrun
    cases hrw : rewritePages (manifest0.setField "Device"
        (.obj [("Model", .str mdl), ("UUID", .str t)]))
        (renamePages srcDir.pages supplyRest []).2.1 with
    | error e =>
      rw [hrw] at hrun
      exact absurd (congrArg Prod.fst hrun) (by simp)
    | ok manifest2 =>
      rw [hrw] at hrun
      dsimp only at hrun
      by_cases hmem : joinPath (joinPath profilesV3Path (upperStr u ++ ".sdProfile"))
          "manifest.json" ∈ fs.failWrites
      · rw [if_pos hmem] at hrun
        exact absurd (congrArg Prod.fst hrun) (by simp)
      · rw [if_neg hmem] at hrun
        have hfs' := congrArg Prod.snd hrun
        have hfst := congrArg Prod.fst hrun
        injection hfst with hr
        subst hr
        have hmap : (renamePages srcDir.pages supplyRest []).2.1
            = List.zipWith (fun pg v => (lowerStr pg.name, lowerStr (upperStr v)))
                srcDir.pages supplyRest := by
          have h := renamePages_mapping srcDir.pages supplyRest [] hlen
            (by simp) hpair
          simpa using h
        have hnames : ((remapManifests "PageUUID" false
            (renamePages srcDir.pages supplyRest []).2.1 fs.failWrites
            (joinPath (joinPath profilesV3Path (upperStr u ++ ".sdProfile"))
              "Profiles")
            (renamePages srcDir.pages supplyRest []).1).1).map PageDir.name
            = (supplyRest.take srcDir.pages.length).map upperStr := by
          rw [remapManifests_names, renamePages_fst_names _ _ _ hlen]
        refine ⟨⟨upperStr u ++ ".sdProfile", .json manifest2,
          (remapManifests "PageUUID" false
            (renamePages srcDir.pages supplyRest []).2.1 fs.failWrites
            (joinPath (joinPath profilesV3Path (upperStr u ++ ".sdProfile"))
              "Profiles")
            (renamePages srcDir.pages supplyRest []).1).1⟩,
          ?_, rfl, upperStr_idem u, rfl, ?_, ?_, ?_⟩
        · exact congrArg FS.profiles hfs'.symm
        · intro pg hpg
          dsimp only at hpg
          have hmm : pg.name ∈ (supplyRest.take srcDir.pages.length).map upperStr := by
            rw [← hnames]
            exact List.mem_map_of_mem PageDir.name hpg
          obtain ⟨v, hv, hveq⟩ := List.mem_map.mp hmm
          rw [← hveq]
          exact upperStr_idem v
        · intro kv hkv
          dsimp only at hkv
          rw [hmap] at hkv
          exact zipWith_rename_entries_lower srcDir.pages supplyRest kv hkv
        · dsimp only
          conv_lhs => rw [hmap, zipWith_rename_snd]
          have hlow : ((remapManifests "PageUUID" false
              (renamePages srcDir.pages supplyRest []).2.1 fs.failWrites
              (joinPath (joinPath profilesV3Path (upperStr u ++ ".sdProfile"))
                "Profiles")
              (renamePages srcDir.pages supplyRest []).1).1).map
                (fun pg => lowerStr pg.name)
              = ((supplyRest.take srcDir.pages.length).map upperStr).map lowerStr := by
            rw [← hnames, List.map_map]
            rfl
          rw [hlow, List.map_map]
          rfl

/-- Witness for the amended C10 at the concrete two-page profile: the
clone whose case discipline the theorem describes is appended, giving
two stored directories. -/
theorem C10_amended_witness :
    ((copyProfile fsC3 "P1" "DEV-B" "MB").2).profiles.length = 2 := by
  have hspec := copyProfile_run_spec fsC3 "P1" "DEV-B" "MB" "aa-1" ["bb-2", "cc-3"]
    rfl pC3 rfl dirC3 rfl (by decide)
  have hrun : copyProfile fsC3 "P1" "DEV-B" "MB" =
      (.ok { id := upperStr "aa-1",
             path := joinPath profilesV3Path (upperStr "aa-1" ++ ".sdProfile"),
             originalId := "P1",
             name := some (.str "One"),
             pageUuidMapping := (renamePages dirC3.pages ["bb-2", "cc-3"] []).2.1 },
       (copyProfile fsC3 "P1" "DEV-B" "MB").2) := by
    conv_lhs => rw [hspec]
    conv_rhs => rw [hspec]
    rfl
  obtain ⟨clone, h1, -, -, -, -, -, -⟩ := C10_amended_case_discipline fsC3 "P1"
    "DEV-B" "MB" "aa-1" ["bb-2", "cc-3"] rfl pC3 rfl dirC3 rfl (by decide)
    (by decide) (by decide) _ _ hrun
  rw [h1]
  rfl

/-- Counterexample to C10's ``never equals byte-for-byte``: with
digit-only minted identifiers (upper- and lowercasing are the identity on
them), the batch copy rewrites the `CD`-copy page's cross-profile
reference to the string `1111` — byte-for-byte equal to the stored
identifier of its target, the `AB` copy stored as directory
`1111.sdProfile`. -/
theorem C10_counterexample :
    pageManifestOf ((copyAllProfiles fsC10 "DEV-A" "DEV-B" "MB").2)
        "2222.sdProfile" "3333"
      = some (.json (.obj [("ProfileUUID", .str "1111")]))
    ∧ ((copyAllProfiles fsC10 "DEV-A" "DEV-B" "MB").2).profiles.map ProfileDir.name
      = ["AB.sdProfile", "CD.sdProfile", "1111.sdProfile", "2222.sdProfile"]
    ∧ (getProfileById ((copyAllProfiles fsC10 "DEV-A" "DEV-B" "MB").2) "1111").map
        Profile.id = some "1111" := by
  have hcp1 : copyProfile fsC10 "AB" "DEV-B" "MB" = (.ok r1C10, fsC10a) := by rfl
  have hR0 : remapDoc "PageUUID" false [("pg", "3333")]
      (Doc.obj [("ProfileUUID", Doc.str "aB")])
      = (Doc.obj [("ProfileUUID", Doc.str "aB")], 0) := by
    simp [remapDoc, remapEntries]
  have hmapeq : (renamePages (dirC2b "aB").pages ["3333"] []).2.1
      = [("pg", "3333")] := by decide
  have hpages : (renamePages (dirC2b "aB").pages ["3333"] []).1 = [pgC10r] := by rfl
  have hpath2 : joinPath (joinPath profilesV3Path (upperStr "2222" ++ ".sdProfile"))
      "Profiles" = "ProfilesV3/2222.sdProfile/Profiles" := by decide
  have hMan0 : remapManifests "PageUUID" false [("pg", "3333")] []
      "ProfilesV3/2222.sdProfile/Profiles" [pgC10r] = ([pgC10r], 0) := by
    simp only [pgC10r, remapManifests, hR0]
    simp
  have hMan2 : remapManifests "PageUUID" false
      (renamePages (dirC2b "aB").pages ["3333"] []).2.1 fsC10a.failWrites
      (joinPath (joinPath profilesV3Path (upperStr "2222" ++ ".sdProfile"))
        "Profiles")
      (renamePages (dirC2b "aB").pages ["3333"] []).1
      = ([pgC10r], 0) := by
    rw [hmapeq, hpages, hpath2]
    exact hMan0
  have hcp2 : copyProfile fsC10a "CD" "DEV-B" "MB" = (.ok r2C10, fsC10b) := by
    rw [copyProfile_run_spec fsC10a "CD" "DEV-B" "MB" "2222" ["3333"] rfl
      pC2b rfl (dirC2b "aB") rfl (by decide)]
    dsimp only
    rw [hMan2]
    rfl
  have hph1 : phase1 "DEV-B" "MB" [pC2a, pC2b] fsC10 []
      = ([.ok r1C10 none, .ok r2C10 none], [("ab", "1111"), ("cd", "2222")],
         fsC10b) := by
    rw [phase1]
    rw [show copyProfile fsC10 pC2a.id "DEV-B" "MB" = (.ok r1C10, fsC10a) from hcp1]
    dsimp only
    rw [phase1]
    rw [show copyProfile fsC10a pC2b.id "DEV-B" "MB" = (.ok r2C10, fsC10b) from hcp2]
    dsimp only
    rw [phase1]
    rfl
  have hrpr1 : remapProfileReferences fsC10b "ProfilesV3/1111.sdProfile"
      [("ab", "1111"), ("cd", "2222")] = (0, fsC10b) := by rfl
  have hR1 : remapDoc "ProfileUUID" true [("ab", "1111"), ("cd", "2222")]
      (Doc.obj [("ProfileUUID", Doc.str "aB")])
      = (Doc.obj [("ProfileUUID", Doc.str "1111")], 1) := by
    have e1 : lowerStr "aB" = "ab" := by decide
    have e2 : lowerStr "1111" = "1111" := by decide
    simp [remapDoc, remapEntries, lookupMap, e1, e2]
  have hMan1 : remapManifests "ProfileUUID" true [("ab", "1111"), ("cd", "2222")]
      fsC10b.failWrites (joinPath "ProfilesV3/2222.sdProfile" "Profiles")
      cloneC10b.pages = ([pgC10f], 1) := by
    show remapManifests "ProfileUUID" true [("ab", "1111"), ("cd", "2222")] []
      "ProfilesV3/2222.sdProfile/Profiles" [pgC10r] = ([pgC10f], 1)
    simp only [pgC10r, remapManifests, hR1]
    simp [pgC10f]
  have hrpr2 : remapProfileReferences fsC10b "ProfilesV3/2222.sdProfile"
      [("ab", "1111"), ("cd", "2222")] = (1, fsC10f) := by
    unfold remapProfileReferences
    rw [show findDirByPath fsC10b "ProfilesV3/2222.sdProfile" = some cloneC10b
      from rfl]
    dsimp only
    rw [hMan1]
    rfl
  have hph2 : phase2 [("ab", "1111"), ("cd", "2222")]
      [.ok r1C10 none, .ok r2C10 none] fsC10b
      = ([.ok r1C10 (some 0), .ok r2C10 (some 1)], fsC10f) := by
    rw [phase2]
    rw [show remapProfileReferences fsC10b r1C10.path
      [("ab", "1111"), ("cd", "2222")] = (0, fsC10b) from hrpr1]
    dsimp only
    rw [phase2]
    rw [show remapProfileReferences fsC10b r2C10.path
      [("ab", "1111"), ("cd", "2222")] = (1, fsC10f) from hrpr2]
    dsimp only
    rw [phase2]
  have hdev : getDeviceByUuid fsC10 "DEV-A"
      = some { uuid := .str "DEV-A", model := some (.str "MA"),
               profiles := [pC2a, pC2b] } := by rfl
  have hall : copyAllProfiles fsC10 "DEV-A" "DEV-B" "MB"
      = (.ok { profiles := [.ok r1C10 (some 0), .ok r2C10 (some 1)] }, fsC10f) := by
    unfold copyAllProfiles
    rw [hdev]
    dsimp only
    rw [hph1]
    dsimp only
    rw [hph2]
  refine ⟨?_, ?_, ?_⟩
  · rw [hall]
    rfl
  · rw [hall]
    rfl
  · rw [hall]
    rfl

/-!
## C2: cross-profile reference integrity across the two phases
-/

/-- **C2.** Batch copy of device `DEV-A` (profiles `AB` and `CD`, the
`CD` page holding a cross-profile switch-reference to `AB` written as
any string `rr` that lowercases to `ab`): after the two phases, the
copied `CD` page's `ProfileUUID` holds exactly the lowercase-normalized
form of the newly minted identifier of the `AB` copy (`EE-1`, written as
`ee-1`) — the original reference having been matched case-insensitively. -/
theorem C2_cross_profile_reference (rr : String) (hrr : lowerStr rr = "ab") :
    (copyAllProfiles (fsC2 rr) "DEV-A" "DEV-B" "MB").1
      = .ok { profiles := [.ok r1C2 (some 0), .ok r2C2 (some 1)] }
    ∧ pageManifestOf ((copyAllProfiles (fsC2 rr) "DEV-A" "DEV-B" "MB").2)
        "FF-2.sdProfile" "GG-3"
      = some (.json (.obj [("ProfileUUID", .str (lowerStr r1C2.id))]))
    ∧ lowerStr r1C2.id = "ee-1" := by
  have hcp1 : copyProfile (fsC2 rr) "AB" "DEV-B" "MB" = (.ok r1C2, fsC2a rr) := by
    rfl
  have hR0 : remapDoc "PageUUID" false [("pg", "gg-3")]
      (Doc.obj [("ProfileUUID", Doc.str rr)])
      = (Doc.obj [("ProfileUUID", Doc.str rr)], 0) := by
    simp [remapDoc, remapEntries]
  have hmapeq : (renamePages (dirC2b rr).pages ["gg-3"] []).2.1
      = [("pg", "gg-3")] := by rfl
  have hpages : (renamePages (dirC2b rr).pages ["gg-3"] []).1 = [pgC2r rr] := by rfl
  have hpath2 : joinPath (joinPath profilesV3Path (upperStr "ff-2" ++ ".sdProfile"))
      "Profiles" = "ProfilesV3/FF-2.sdProfile/Profiles" := by decide
  have hMan0 : remapManifests "PageUUID" false [("pg", "gg-3")] []
      "ProfilesV3/FF-2.sdProfile/Profiles" [pgC2r rr] = ([pgC2r rr], 0) := by
    simp only [pgC2r, remapManifests, hR0]
    simp
  have hMan2 : remapManifests "PageUUID" false
      (renamePages (dirC2b rr).pages ["gg-3"] []).2.1 (fsC2a rr).failWrites
      (joinPath (joinPath profilesV3Path (upperStr "ff-2" ++ ".sdProfile"))
        "Profiles")
      (renamePages (dirC2b rr).pages ["gg-3"] []).1
      = ([pgC2r rr], 0) := by
    rw [hmapeq, hpages, hpath2]
    exact hMan0
  have hcp2 : copyProfile (fsC2a rr) "CD" "DEV-B" "MB"
      = (.ok r2C2, fsC2b rr) := by
    rw [copyProfile_run_spec (fsC2a rr) "CD" "DEV-B" "MB" "ff-2" ["gg-3"] rfl
      pC2b rfl (dirC2b rr) rfl (by
        intro d hd
        rw [show upperStr "ff-2" ++ ".sdProfile" = "FF-2.sdProfile" from by decide]
        simp only [fsC2a, List.mem_cons, List.not_mem_nil, or_false] at hd
        rcases hd with h | h | h <;> subst h
        · exact (by decide : "AB.sdProfile" ≠ "FF-2.sdProfile")
        · exact (by decide : "CD.sdProfile" ≠ "FF-2.sdProfile")
        · exact (by decide : "EE-1.sdProfile" ≠ "FF-2.sdProfile"))]
    dsimp only
    rw [hMan2]
    rfl
  have hph1 : phase1 "DEV-B" "MB" [pC2a, pC2b] (fsC2 rr) []
      = ([.ok r1C2 none, .ok r2C2 none], [("ab", "EE-1"), ("cd", "FF-2")],
         fsC2b rr) := by
    rw [phase1]
    rw [show copyProfile (fsC2 rr) pC2a.id "DEV-B" "MB" = (.ok r1C2, fsC2a rr)
      from hcp1]
    dsimp only
    rw [phase1]
    rw [show copyProfile (fsC2a rr) pC2b.id "DEV-B" "MB" = (.ok r2C2, fsC2b rr)
      from hcp2]
    dsimp only
    rw [phase1]
    rfl
  have hrpr1 : remapProfileReferences (fsC2b rr) "ProfilesV3/EE-1.sdProfile"
      [("ab", "EE-1"), ("cd", "FF-2")] = (0, fsC2b rr) := by rfl
  have hR1 : remapDoc "ProfileUUID" true [("ab", "EE-1"), ("cd", "FF-2")]
      (Doc.obj [("ProfileUUID", Doc.str rr)])
      = (Doc.obj [("ProfileUUID", Doc.str "ee-1")], 1) := by
    have e2 : lowerStr "EE-1" = "ee-1" := by decide
    simp [remapDoc, remapEntries, lookupMap, hrr, e2]
  have hMan1 : remapManifests "ProfileUUID" true [("ab", "EE-1"), ("cd", "FF-2")]
      (fsC2b rr).failWrites (joinPath "ProfilesV3/FF-2.sdProfile" "Profiles")
      (cloneC2b rr).pages = ([pgC2f], 1) := by
    show remapManifests "ProfileUUID" true [("ab", "EE-1"), ("cd", "FF-2")] []
      "ProfilesV3/FF-2.sdProfile/Profiles" [pgC2r rr] = ([pgC2f], 1)
    simp only [pgC2r, remapManifests, hR1]
    simp [pgC2f]
  have hrpr2 : remapProfileReferences (fsC2b rr) "ProfilesV3/FF-2.sdProfile"
      [("ab", "EE-1"), ("cd", "FF-2")] = (1, fsC2f rr) := by
    unfold remapProfileReferences
    rw [show findDirByPath (fsC2b rr) "ProfilesV3/FF-2.sdProfile"
      = some (cloneC2b rr) from rfl]
    dsimp only
    rw [hMan1]
    rfl
  have hph2 : phase2 [("ab", "EE-1"), ("cd", "FF-2")]
      [.ok r1C2 none, .ok r2C2 none] (fsC2b rr)
      = ([.ok r1C2 (some 0), .ok r2C2 (some 1)], fsC2f rr) := by
    rw [phase2]
    rw [show remapProfileReferences (fsC2b rr) r1C2.path
      [("ab", "EE-1"), ("cd", "FF-2")] = (0, fsC2b rr) from hrpr1]
    dsimp only
    rw [phase2]
    rw [show remapProfileReferences (fsC2b rr) r2C2.path
      [("ab", "EE-1"), ("cd", "FF-2")] = (1, fsC2f rr) from hrpr2]
    dsimp only
    rw [phase2]
  have hdev : getDeviceByUuid (fsC2 rr) "DEV-A"
      = some { uuid := .str "DEV-A", model := some (.str "MA"),
               profiles := [pC2a, pC2b] } := by rfl
  have hall : copyAllProfiles (fsC2 rr) "DEV-A" "DEV-B" "MB"
      = (.ok { profiles := [.ok r1C2 (some 0), .ok r2C2 (some 1)] }, fsC2f rr) := by
    unfold copyAllProfiles
    rw [hdev]
    dsimp only
    rw [hph1]
    dsimp only
    rw [hph2]
  refine ⟨?_, ?_, by decide⟩
  · rw [hall]
  · rw [hall]
    rfl

/-- Witness for C2 at the concrete mixed-case reference `aB`. -/
theorem C2_witness :
    (copyAllProfiles (fsC2 "aB") "DEV-A" "DEV-B" "MB").1
      = .ok { profiles := [.ok r1C2 (some 0), .ok r2C2 (some 1)] }
    ∧ pageManifestOf ((copyAllProfiles (fsC2 "aB") "DEV-A" "DEV-B" "MB").2)
        "FF-2.sdProfile" "GG-3"
      = some (.json (.obj [("ProfileUUID", .str (lowerStr r1C2.id))]))
    ∧ lowerStr r1C2.id = "ee-1" :=
  C2_cross_profile_reference "aB" (by decide)

end StreamDeck
